import Mathlib

/-!
# USD: hit aggregation in the Hdx test picker and the Maya mesh attribute getters

Shallow embedding of

* `pxr/imaging/lib/hdx/unitTestUtils.cpp`: `HitHash`, `HitEq` and the aggregation loop of
  `Picker::Pick`;
* `third_party/maya/lib/usdMaya/meshUtil.cpp`: `getEmitNormals`, `GetMeshNormals`,
  `getSubdivScheme`, `getSubdivInterpBoundary`, `_getSubdivFVInterpBoundary`,
  `getSubdivFVLinearInterpolation`, `setSubdivScheme` and `setSubdivFVLinearInterpolation`.

Definitions come first, theorems after them.
-/

set_option autoImplicit false

/-! ## Shared data -/

/-- An `SdfPath`, carried as its text. The code only compares paths and hashes them. -/
abbrev SdfPath := String

/-- A single-precision float, carried as its 32-bit pattern. The code embedded here only
copies floats, it never computes with them. -/
abbrev F32 := Nat

/-- The three components of a `GfVec3f` (also used for Maya's `MFloatVector`). -/
structure GfVec3f where
  x : F32
  y : F32
  z : F32
  deriving DecidableEq, Repr, Inhabited

namespace HdxUnitTestUtils

/-- Modelled from the spec: `HdxIntersector::Hit` is declared in `hdx/intersector.h`, which is
not among the sources; the fields are the ones `HitHash`, `HitEq` and `Picker::Pick` read
(object identity, instancer identity, instance index, element index, world-space position,
normalized-device-coordinate depth). -/
structure Hit where
  delegateId : SdfPath
  objectId : SdfPath
  instancerId : SdfPath
  instanceIndex : Int
  elementIndex : Int
  worldSpaceHitPoint : GfVec3f
  ndcDepth : F32
  deriving DecidableEq, Repr

/-- The partial hash `HitHash::operator()`: four `boost::hash_combine` steps starting from 0,
over `delegateId`, `objectId`, `instancerId` and `instanceIndex`. `SdfPath::GetHash`
(`pathHash`), the hash of an `int` (`intHash`) and the mixing step of `boost::hash_combine`
(`combine seed value`) belong to libraries and are taken as arguments. -/
def HitHash (pathHash : SdfPath → Nat) (intHash : Int → Nat) (combine : Nat → Nat → Nat)
    (hit : Hit) : Nat :=
  let hash := 0
  let hash := combine hash (pathHash hit.delegateId)
  let hash := combine hash (pathHash hit.objectId)
  let hash := combine hash (pathHash hit.instancerId)
  let hash := combine hash (intHash hit.instanceIndex)
  hash

/-- The equality `HitEq::operator()`. -/
def HitEq (a b : Hit) : Bool :=
  a.delegateId == b.delegateId &&
  a.objectId == b.objectId &&
  a.instancerId == b.instancerId &&
  a.instanceIndex == b.instanceIndex

/-- The call `std::unordered_set<Hit, HitHash, HitEq>::insert`: the set keeps the element it already
holds when one of its elements is equivalent to `hit` under `HitEq`, and gains `hit` otherwise.
The set is carried as the list of its elements in insertion order. -/
def HitSet_insert (aggregatedHits : List Hit) (hit : Hit) : List Hit :=
  if aggregatedHits.any (fun e => HitEq e hit) then aggregatedHits
  else aggregatedHits ++ [hit]

/-- The aggregation loop of `Picker::Pick`: starting from the empty set, every hit of `hits`
(in the order the loop visits them) is inserted into `aggregatedHits`. -/
def aggregatedHits (hits : List Hit) : List Hit :=
  hits.foldl HitSet_insert []

/-- Two hits the counterexample below uses: the same prim path reported by two different scene
delegates. -/
def hitOfDelegateA : Hit :=
  { delegateId := "/delegateA", objectId := "/cube", instancerId := "", instanceIndex := 0,
    elementIndex := 0, worldSpaceHitPoint := ⟨0, 0, 0⟩, ndcDepth := 0 }

/-- The second hit: it differs from `hitOfDelegateA` in `delegateId` only. -/
def hitOfDelegateB : Hit :=
  { delegateId := "/delegateB", objectId := "/cube", instancerId := "", instanceIndex := 0,
    elementIndex := 0, worldSpaceHitPoint := ⟨0, 0, 0⟩, ndcDepth := 0 }

/-- A hit on element 3 of instance 2 of `/proto`, close to the camera. -/
def hitNear : Hit :=
  { delegateId := "/", objectId := "/proto", instancerId := "/instancer", instanceIndex := 2,
    elementIndex := 3, worldSpaceHitPoint := ⟨1, 2, 3⟩, ndcDepth := 10 }

/-- A hit on element 7 of the same instance of `/proto`, at another position and depth. -/
def hitFar : Hit :=
  { delegateId := "/", objectId := "/proto", instancerId := "/instancer", instanceIndex := 2,
    elementIndex := 7, worldSpaceHitPoint := ⟨4, 5, 6⟩, ndcDepth := 20 }

/-- A hit on another prim of the same instancer: it differs from `hitNear` in `objectId`
only. -/
def hitOtherObject : Hit :=
  { delegateId := "/", objectId := "/proto2", instancerId := "/instancer", instanceIndex := 2,
    elementIndex := 3, worldSpaceHitPoint := ⟨1, 2, 3⟩, ndcDepth := 10 }

/-- A hit that differs from `hitNear` in `instancerId` only. -/
def hitOtherInstancer : Hit :=
  { delegateId := "/", objectId := "/proto", instancerId := "/instancer2", instanceIndex := 2,
    elementIndex := 3, worldSpaceHitPoint := ⟨1, 2, 3⟩, ndcDepth := 10 }

/-- A hit on another instance: it differs from `hitNear` in `instanceIndex` only. -/
def hitOtherInstance : Hit :=
  { delegateId := "/", objectId := "/proto", instancerId := "/instancer", instanceIndex := 5,
    elementIndex := 3, worldSpaceHitPoint := ⟨1, 2, 3⟩, ndcDepth := 10 }

/-- The key the claims name, in their words: (`delegateId`, `objectId`, `instancerId`,
`instanceIndex`). It is written from the claim, not from the code, to be compared with
`HitEq`. -/
def hitKey (hit : Hit) : SdfPath × SdfPath × SdfPath × Int :=
  (hit.delegateId, hit.objectId, hit.instancerId, hit.instanceIndex)

/-- The four key fields of a hit agree. -/
def SameKey (a b : Hit) : Prop :=
  a.delegateId = b.delegateId ∧ a.objectId = b.objectId ∧
  a.instancerId = b.instancerId ∧ a.instanceIndex = b.instanceIndex

end HdxUnitTestUtils

/-! ## Maya mesh attributes -/

/-- A `TfToken`, carried as its text; the empty token is the empty text. -/
abbrev TfToken := String

namespace UsdGeomTokens

/-- Modelled from the spec: `UsdGeomTokens` is declared in `usdGeom/tokens.h`, which is not
among the sources; it is the fixed vocabulary of string tokens of the subdivision-scheme and
boundary-interpolation enumerations, and the text of each token is its name. -/
def none : TfToken := "none"

/-- Modelled from the spec: the `catmullClark` token of `UsdGeomTokens` (see `none`). -/
def catmullClark : TfToken := "catmullClark"

/-- Modelled from the spec: the `loop` token of `UsdGeomTokens` (see `none`). -/
def loop : TfToken := "loop"

/-- Modelled from the spec: the `bilinear` token of `UsdGeomTokens` (see `none`). -/
def bilinear : TfToken := "bilinear"

/-- Modelled from the spec: the `edgeAndCorner` token of `UsdGeomTokens` (see `none`). -/
def edgeAndCorner : TfToken := "edgeAndCorner"

/-- Modelled from the spec: the `edgeOnly` token of `UsdGeomTokens` (see `none`). -/
def edgeOnly : TfToken := "edgeOnly"

/-- Modelled from the spec: the `all` token of `UsdGeomTokens` (see `none`). -/
def all : TfToken := "all"

/-- Modelled from the spec: the `boundaries` token of `UsdGeomTokens` (see `none`). -/
def boundaries : TfToken := "boundaries"

/-- Modelled from the spec: the `cornersOnly` token of `UsdGeomTokens` (see `none`). -/
def cornersOnly : TfToken := "cornersOnly"

/-- Modelled from the spec: the `cornersPlus1` token of `UsdGeomTokens` (see `none`). -/
def cornersPlus1 : TfToken := "cornersPlus1"

/-- Modelled from the spec: the `cornersPlus2` token of `UsdGeomTokens` (see `none`). -/
def cornersPlus2 : TfToken := "cornersPlus2"

/-- Modelled from the spec: the `faceVarying` token of `UsdGeomTokens` (see `none`). -/
def faceVarying : TfToken := "faceVarying"

end UsdGeomTokens

namespace PxrUsdMayaMeshUtil

/-- The private tokens `_meshTokens` (`TF_DEFINE_PRIVATE_TOKENS`): `USD_EmitNormals`. -/
def _meshTokens.USD_EmitNormals : TfToken := "USD_EmitNormals"

/-- The private tokens `_meshTokens`: `alwaysSharp`, an OpenSubdiv 2 value. -/
def _meshTokens.alwaysSharp : TfToken := "alwaysSharp"

/-- The private tokens `_subdivTokens`: `USD_subdivisionScheme`. -/
def _subdivTokens.USD_subdivisionScheme : TfToken := "USD_subdivisionScheme"

/-- The private tokens `_subdivTokens`: `USD_interpolateBoundary`. -/
def _subdivTokens.USD_interpolateBoundary : TfToken := "USD_interpolateBoundary"

/-- The private tokens `_subdivTokens`: `USD_faceVaryingLinearInterpolation`. -/
def _subdivTokens.USD_faceVaryingLinearInterpolation : TfToken :=
  "USD_faceVaryingLinearInterpolation"

/-- The private tokens `_subdivTokens`: the deprecated `USD_faceVaryingInterpolateBoundary`. -/
def _subdivTokens.USD_faceVaryingInterpolateBoundary : TfToken :=
  "USD_faceVaryingInterpolateBoundary"

/-- Maya's `MStatus`, as far as the code tests it (`status == MS::kSuccess`). -/
inductive MStatus where
  | kSuccess
  | kFailure
  deriving DecidableEq, Repr

/-- A non-null `MPlug`, given by what its three accessors return: `plug.asString().asChar()`,
`plug.asInt()` and `plug.asBool()`. -/
structure MPlug where
  asString : String
  asInt : Int
  asBool : Bool
  deriving DecidableEq, Repr

/-- A Maya mesh as `MFnMesh` shows it to the code: the plugs `findPlug` finds by name, the
mesh's array of normals, the `normalId` of each face vertex in the order `MItMeshFaceVertex`
visits them, and the status each of the three queries reports. `numNormals` and `getNormals`
are two views of the one array of normals, `numFaceVertices` and the iterator two views of the
one sequence of face vertices. -/
structure MFnMesh where
  plugs : List (String × MPlug)
  normals : List GfVec3f
  faceVertexNormalIds : List Int
  numNormalsStatus : MStatus
  getNormalsStatus : MStatus
  numFaceVerticesStatus : MStatus

/-- The call `mesh.findPlug(name)`: `none` stands for the null plug. -/
def MFnMesh.findPlug (mesh : MFnMesh) (name : String) : Option MPlug :=
  mesh.plugs.lookup name

/-- The call `mesh.numNormals(&status)`: the status and the count. -/
def MFnMesh.numNormals (mesh : MFnMesh) : MStatus × Int :=
  (mesh.numNormalsStatus, (mesh.normals.length : Int))

/-- The call `mesh.getNormals(mayaNormals)`: the status and the array. -/
def MFnMesh.getNormals (mesh : MFnMesh) : MStatus × List GfVec3f :=
  (mesh.getNormalsStatus, mesh.normals)

/-- The call `mesh.numFaceVertices(&status)`: the status and the count. -/
def MFnMesh.numFaceVertices (mesh : MFnMesh) : MStatus × Nat :=
  (mesh.numFaceVerticesStatus, mesh.faceVertexNormalIds.length)

/-- The function `getEmitNormals`. -/
def getEmitNormals (mesh : MFnMesh) (subdivScheme : TfToken) : Bool :=
  match mesh.findPlug _meshTokens.USD_EmitNormals with
  | some plug => plug.asBool
  | none => subdivScheme == UsdGeomTokens.none

/-- The call `normalsArray->resize(n)` of `VtArray`: the first `n` elements are kept and the
array is padded with value-initialised elements up to length `n`. -/
def VtArray_resize (normalsArray : List GfVec3f) (n : Nat) : List GfVec3f :=
  normalsArray.take n ++ List.replicate (n - normalsArray.length) default

/-- The assignment to `(*normalsArray)[fvi]`; an index outside the array is undefined
behaviour, rendered as `none`. -/
def VtArray_assign (normalsArray : List GfVec3f) (fvi : Nat) (normal : GfVec3f) :
    Option (List GfVec3f) :=
  if fvi < normalsArray.length then some (normalsArray.set fvi normal) else none

/-- The loop of `GetMeshNormals` over the face vertices still to visit, with the running index
`fvi`: a `normalId` that is negative or not below `mayaNormals.length()` ends it with `false`;
otherwise the normal `mayaNormals[normalId]` is copied to `(*normalsArray)[fvi]`. The result is
the returned boolean and the array; `none` is an access outside an array. -/
def GetMeshNormals_loop (mayaNormals : List GfVec3f) :
    List Int → Nat → List GfVec3f → Option (Bool × List GfVec3f)
  | [], _, normalsArray => some (true, normalsArray)
  | normalId :: rest, fvi, normalsArray =>
    if normalId < 0 ∨ mayaNormals.length ≤ normalId.toNat then
      some (false, normalsArray)
    else
      match mayaNormals[normalId.toNat]? with
      | Option.none => Option.none
      | some normal =>
        match VtArray_assign normalsArray fvi normal with
        | Option.none => Option.none
        | some normalsArray => GetMeshNormals_loop mayaNormals rest (fvi + 1) normalsArray

/-- The function `GetMeshNormals`. The two out-parameters are passed in with the values they
hold at the call and come back with the values they hold at the return, next to the returned
boolean; `none` is an access outside an array. -/
def GetMeshNormals (mesh : MFnMesh) (normalsArray : List GfVec3f) (interpolation : TfToken) :
    Option (Bool × List GfVec3f × TfToken) :=
  let (status, numNormals) := mesh.numNormals
  if status ≠ MStatus.kSuccess ∨ numNormals = 0 then
    some (false, normalsArray, interpolation)
  else
    let (status, mayaNormals) := mesh.getNormals
    if status ≠ MStatus.kSuccess then
      some (false, normalsArray, interpolation)
    else
      let (status, numFaceVertices) := mesh.numFaceVertices
      if status ≠ MStatus.kSuccess then
        some (false, normalsArray, interpolation)
      else
        let normalsArray := VtArray_resize normalsArray numFaceVertices
        let interpolation := UsdGeomTokens.faceVarying
        match GetMeshNormals_loop mayaNormals mesh.faceVertexNormalIds 0 normalsArray with
        | Option.none => Option.none
        | some (result, normalsArray) => some (result, normalsArray, interpolation)

/-- The function `getSubdivScheme`. The message of `MGlobal::displayError` on an unsupported
value is not part of the result and is left out. -/
def getSubdivScheme (mesh : MFnMesh) (defaultValue : TfToken) : TfToken :=
  let schemeToken : TfToken :=
    match mesh.findPlug _subdivTokens.USD_subdivisionScheme with
    | some plug => plug.asString
    | Option.none =>
      match mesh.findPlug "rman__torattr___subdivScheme" with
      | some plug =>
        if plug.asInt = 0 then UsdGeomTokens.catmullClark
        else if plug.asInt = 1 then UsdGeomTokens.loop
        else defaultValue
      | Option.none => defaultValue
  if schemeToken = "" then
    defaultValue
  else if schemeToken ≠ UsdGeomTokens.none ∧
      schemeToken ≠ UsdGeomTokens.catmullClark ∧
      schemeToken ≠ UsdGeomTokens.loop ∧
      schemeToken ≠ UsdGeomTokens.bilinear then
    defaultValue
  else
    schemeToken

/-- The function `getSubdivInterpBoundary`, the error message left out as in
`getSubdivScheme`. -/
def getSubdivInterpBoundary (mesh : MFnMesh) (defaultValue : TfToken) : TfToken :=
  let interpBoundaryToken : TfToken :=
    match mesh.findPlug _subdivTokens.USD_interpolateBoundary with
    | some plug => plug.asString
    | Option.none =>
      match mesh.findPlug "rman__torattr___subdivInterp" with
      | some plug =>
        if plug.asInt = 0 then UsdGeomTokens.none
        else if plug.asInt = 1 then UsdGeomTokens.edgeAndCorner
        else if plug.asInt = 2 then UsdGeomTokens.edgeOnly
        else defaultValue
      | Option.none => defaultValue
  if interpBoundaryToken = "" then
    defaultValue
  else if interpBoundaryToken ≠ UsdGeomTokens.none ∧
      interpBoundaryToken ≠ UsdGeomTokens.edgeAndCorner ∧
      interpBoundaryToken ≠ UsdGeomTokens.edgeOnly then
    defaultValue
  else
    interpBoundaryToken

/-- The static function `_getSubdivFVInterpBoundary`: the OpenSubdiv 2 value of the legacy
attribute translated to OpenSubdiv 3, or else the RenderMan for Maya int attribute. -/
def _getSubdivFVInterpBoundary (mesh : MFnMesh) : TfToken :=
  match mesh.findPlug _subdivTokens.USD_faceVaryingInterpolateBoundary with
  | some plug =>
    let sdFVInterpBound : TfToken := plug.asString
    if sdFVInterpBound = UsdGeomTokens.bilinear then UsdGeomTokens.all
    else if sdFVInterpBound = UsdGeomTokens.edgeAndCorner then UsdGeomTokens.cornersPlus1
    else if sdFVInterpBound = _meshTokens.alwaysSharp then UsdGeomTokens.boundaries
    else if sdFVInterpBound = UsdGeomTokens.edgeOnly then UsdGeomTokens.none
    else sdFVInterpBound
  | Option.none =>
    match mesh.findPlug "rman__torattr___subdivFacevaryingInterp" with
    | some plug =>
      if plug.asInt = 0 then UsdGeomTokens.all
      else if plug.asInt = 1 then UsdGeomTokens.cornersPlus1
      else if plug.asInt = 2 then UsdGeomTokens.none
      else if plug.asInt = 3 then UsdGeomTokens.boundaries
      else ""
    | Option.none => ""

/-- The function `getSubdivFVLinearInterpolation`, the error message left out as in
`getSubdivScheme`. -/
def getSubdivFVLinearInterpolation (mesh : MFnMesh) : TfToken :=
  let sdFVLinearInterpolation : TfToken :=
    match mesh.findPlug _subdivTokens.USD_faceVaryingLinearInterpolation with
    | some plug => plug.asString
    | Option.none => _getSubdivFVInterpBoundary mesh
  if sdFVLinearInterpolation ≠ "" ∧
      sdFVLinearInterpolation ≠ UsdGeomTokens.all ∧
      sdFVLinearInterpolation ≠ UsdGeomTokens.none ∧
      sdFVLinearInterpolation ≠ UsdGeomTokens.boundaries ∧
      sdFVLinearInterpolation ≠ UsdGeomTokens.cornersOnly ∧
      sdFVLinearInterpolation ≠ UsdGeomTokens.cornersPlus1 ∧
      sdFVLinearInterpolation ≠ UsdGeomTokens.cornersPlus2 then
    ""
  else
    sdFVLinearInterpolation

/-- Modelled from the spec: `UsdGeomMesh` is declared in `usdGeom/mesh.h`, which is not among
the sources; the prim schema is given by the tokens the two setters read from it, the value
`GetSubdivisionSchemeAttr().Get` and `GetFaceVaryingLinearInterpolationAttr().Get` leave in
the token passed to them. -/
structure UsdGeomMesh where
  subdivisionScheme : TfToken
  faceVaryingLinearInterpolation : TfToken
  deriving DecidableEq, Repr

/-- The plug of a string attribute made by `MFnTypedAttribute::create` with the default value
`stringVal`: `asString` gives that value; `asInt` and `asBool`, which no getter calls on these
attributes, give 0 and false. -/
def stringAttrPlug (stringVal : String) : MPlug :=
  { asString := stringVal, asInt := 0, asBool := false }

/-- The call `meshFn.addAttribute(attr)` for an attribute of the given name: the node gains the
attribute unless it already has one of that name. -/
def MFnMesh.addAttribute (meshFn : MFnMesh) (name : String) (plug : MPlug) : MFnMesh :=
  match meshFn.findPlug name with
  | some _ => meshFn
  | Option.none => { meshFn with plugs := meshFn.plugs ++ [(name, plug)] }

/-- The function `setSubdivScheme`: the returned token and the mesh after the call. `status` is
the status `MFnTypedAttribute::create` reports. -/
def setSubdivScheme (primSchema : UsdGeomMesh) (meshFn : MFnMesh) (defaultValue : TfToken)
    (status : MStatus) : TfToken × MFnMesh :=
  let subdScheme : TfToken := primSchema.subdivisionScheme
  if subdScheme ≠ defaultValue then
    if status = MStatus.kSuccess then
      (subdScheme,
        meshFn.addAttribute _subdivTokens.USD_subdivisionScheme (stringAttrPlug subdScheme))
    else
      (subdScheme, meshFn)
  else
    (subdScheme, meshFn)

/-- The function `setSubdivFVLinearInterpolation`: the returned token and the mesh after the
call. `status` is the status `MFnTypedAttribute::create` reports. -/
def setSubdivFVLinearInterpolation (primSchema : UsdGeomMesh) (meshFn : MFnMesh)
    (status : MStatus) : TfToken × MFnMesh :=
  let fvLinearInterpolation : TfToken := primSchema.faceVaryingLinearInterpolation
  if fvLinearInterpolation ≠ UsdGeomTokens.cornersPlus1 then
    if status = MStatus.kSuccess then
      (fvLinearInterpolation,
        meshFn.addAttribute _subdivTokens.USD_faceVaryingInterpolateBoundary
          (stringAttrPlug fvLinearInterpolation))
    else
      (fvLinearInterpolation, meshFn)
  else
    (fvLinearInterpolation, meshFn)

/-- A mesh whose only attribute is the legacy `USD_faceVaryingInterpolateBoundary`, holding
`value`. -/
def meshWithLegacyFV (value : String) : MFnMesh :=
  { plugs := [("USD_faceVaryingInterpolateBoundary", ⟨value, 0, false⟩)],
    normals := [], faceVertexNormalIds := [],
    numNormalsStatus := MStatus.kSuccess, getNormalsStatus := MStatus.kSuccess,
    numFaceVerticesStatus := MStatus.kSuccess }

/-- A mesh with the given plugs and no normals. -/
def meshWithPlugs (plugs : List (String × MPlug)) : MFnMesh :=
  { plugs := plugs, normals := [], faceVertexNormalIds := [],
    numNormalsStatus := MStatus.kSuccess, getNormalsStatus := MStatus.kSuccess,
    numFaceVerticesStatus := MStatus.kSuccess }

/-- A triangle with two normals: its three face vertices use normals 1, 0 and 1. -/
def meshTriangle : MFnMesh :=
  { plugs := [], normals := [⟨1, 1, 1⟩, ⟨2, 2, 2⟩], faceVertexNormalIds := [1, 0, 1],
    numNormalsStatus := MStatus.kSuccess, getNormalsStatus := MStatus.kSuccess,
    numFaceVerticesStatus := MStatus.kSuccess }

/-- A mesh without normals: one triangle whose face vertices name no normal. -/
def meshNoNormals : MFnMesh :=
  { plugs := [], normals := [], faceVertexNormalIds := [-1, -1, -1],
    numNormalsStatus := MStatus.kSuccess, getNormalsStatus := MStatus.kSuccess,
    numFaceVerticesStatus := MStatus.kSuccess }

/-- A triangle with two normals whose second face vertex names normal 2, which does not
exist. -/
def meshBadNormalId : MFnMesh :=
  { plugs := [], normals := [⟨1, 1, 1⟩, ⟨2, 2, 2⟩], faceVertexNormalIds := [1, 2, 1],
    numNormalsStatus := MStatus.kSuccess, getNormalsStatus := MStatus.kSuccess,
    numFaceVerticesStatus := MStatus.kSuccess }

end PxrUsdMayaMeshUtil

/-! ## Theorems: hit aggregation -/

namespace HdxUnitTestUtils

theorem HitEq_iff (a b : Hit) : HitEq a b = true ↔ SameKey a b := by
  simp [HitEq, SameKey, and_assoc]

theorem HitEq_refl (a : Hit) : HitEq a a = true := by
  simp [HitEq]

theorem HitEq_symm (a b : Hit) : HitEq a b = HitEq b a := by
  rw [Bool.eq_iff_iff, HitEq_iff, HitEq_iff]
  unfold SameKey
  constructor <;> (rintro ⟨h1, h2, h3, h4⟩; exact ⟨h1.symm, h2.symm, h3.symm, h4.symm⟩)

theorem HitEq_trans {a b c : Hit} (hab : HitEq a b = true) (hbc : HitEq b c = true) :
    HitEq a c = true := by
  rw [HitEq_iff] at *
  obtain ⟨h1, h2, h3, h4⟩ := hab
  obtain ⟨k1, k2, k3, k4⟩ := hbc
  exact ⟨h1.trans k1, h2.trans k2, h3.trans k3, h4.trans k4⟩

/-- The hash is compatible with the equality, as `std::unordered_set` requires. -/
theorem HitHash_eq_of_HitEq (pathHash : SdfPath → Nat) (intHash : Int → Nat)
    (combine : Nat → Nat → Nat) {a b : Hit} (h : HitEq a b = true) :
    HitHash pathHash intHash combine a = HitHash pathHash intHash combine b := by
  rw [HitEq_iff] at h
  obtain ⟨h1, h2, h3, h4⟩ := h
  simp [HitHash, h1, h2, h3, h4]

theorem mem_HitSet_insert_iff (s : List Hit) (h e : Hit) :
    e ∈ HitSet_insert s h ↔ e ∈ s ∨ (e = h ∧ ∀ x ∈ s, HitEq x h = false) := by
  unfold HitSet_insert
  by_cases hany : s.any (fun e => HitEq e h) = true
  · rw [if_pos hany]
    constructor
    · exact Or.inl
    · rintro (hm | ⟨_, hall⟩)
      · exact hm
      · rw [List.any_eq_true] at hany
        obtain ⟨x, hx, hxe⟩ := hany
        rw [hall x hx] at hxe
        exact absurd hxe (by decide)
  · rw [if_neg hany]
    have hall : ∀ x ∈ s, HitEq x h = false := by
      intro x hx
      by_contra hne
      exact hany (List.any_eq_true.mpr ⟨x, hx, by simpa using hne⟩)
    simp only [List.mem_append, List.mem_singleton]
    constructor
    · rintro (hm | he)
      · exact Or.inl hm
      · exact Or.inr ⟨he, hall⟩
    · rintro (hm | ⟨he, _⟩)
      · exact Or.inl hm
      · exact Or.inr he

theorem pairwise_HitSet_insert (s : List Hit) (h : Hit)
    (hs : s.Pairwise (fun a b => HitEq a b = false)) :
    (HitSet_insert s h).Pairwise (fun a b => HitEq a b = false) := by
  unfold HitSet_insert
  by_cases hany : s.any (fun e => HitEq e h) = true
  · rw [if_pos hany]; exact hs
  · rw [if_neg hany]
    rw [List.pairwise_append]
    refine ⟨hs, List.pairwise_singleton _ _, ?_⟩
    intro x hx y hy
    rw [List.mem_singleton] at hy
    subst hy
    by_contra hne
    exact hany (List.any_eq_true.mpr ⟨x, hx, by simpa using hne⟩)

theorem exists_HitEq_HitSet_insert (s : List Hit) (h : Hit) :
    ∃ e ∈ HitSet_insert s h, HitEq h e = true := by
  by_cases hall : ∀ x ∈ s, HitEq x h = false
  · exact ⟨h, (mem_HitSet_insert_iff s h h).mpr (Or.inr ⟨rfl, hall⟩), HitEq_refl h⟩
  · push_neg at hall
    obtain ⟨x, hx, hxe⟩ := hall
    refine ⟨x, (mem_HitSet_insert_iff s h x).mpr (Or.inl hx), ?_⟩
    rw [HitEq_symm]
    simpa using hxe

/-- What the insertion loop keeps true, for any starting set `acc` without equivalent
elements. -/
theorem foldl_HitSet_insert_spec (hits : List Hit) :
    ∀ acc : List Hit, acc.Pairwise (fun a b => HitEq a b = false) →
      (∀ e ∈ hits.foldl HitSet_insert acc, e ∈ acc ∨ e ∈ hits) ∧
      (hits.foldl HitSet_insert acc).Pairwise (fun a b => HitEq a b = false) ∧
      (∀ e ∈ acc, e ∈ hits.foldl HitSet_insert acc) ∧
      (∀ h ∈ hits, ∃ e ∈ hits.foldl HitSet_insert acc, HitEq h e = true) := by
  induction hits with
  | nil =>
    intro acc hacc
    refine ⟨fun e he => Or.inl he, hacc, fun e he => he, ?_⟩
    intro h hh
    cases hh
  | cons x t ih =>
    intro acc hacc
    obtain ⟨ih1, ih2, ih3, ih4⟩ := ih (HitSet_insert acc x) (pairwise_HitSet_insert acc x hacc)
    simp only [List.foldl_cons]
    refine ⟨?_, ih2, ?_, ?_⟩
    · intro e he
      rcases ih1 e he with h1 | h1
      · rcases (mem_HitSet_insert_iff acc x e).mp h1 with h2 | ⟨h2, _⟩
        · exact Or.inl h2
        · exact Or.inr (h2 ▸ List.mem_cons_self _ _)
      · exact Or.inr (List.mem_cons_of_mem _ h1)
    · intro e he
      exact ih3 e ((mem_HitSet_insert_iff acc x e).mpr (Or.inl he))
    · intro h hh
      rcases List.mem_cons.mp hh with rfl | hh
      · obtain ⟨e, he, hhe⟩ := exists_HitEq_HitSet_insert acc h
        exact ⟨e, ih3 e he, hhe⟩
      · exact ih4 h hh

theorem countP_HitEq_eq_one (l : List Hit) (h : Hit)
    (hl : l.Pairwise (fun a b => HitEq a b = false))
    (hex : ∃ e ∈ l, HitEq h e = true) :
    l.countP (fun e => HitEq h e) = 1 := by
  induction l with
  | nil =>
    obtain ⟨e, he, _⟩ := hex
    cases he
  | cons x t ih =>
    rw [List.pairwise_cons] at hl
    obtain ⟨hxt, ht⟩ := hl
    by_cases hx : HitEq h x = true
    · rw [List.countP_cons_of_pos _ _ hx]
      have hzero : t.countP (fun e => HitEq h e) = 0 := by
        rw [List.countP_eq_zero]
        intro y hy hhy
        have hxy : HitEq x y = true := HitEq_trans (by rw [HitEq_symm]; exact hx) hhy
        rw [hxt y hy] at hxy
        exact absurd hxy (by decide)
      rw [hzero]
    · rw [List.countP_cons_of_neg _ _ hx]
      apply ih ht
      obtain ⟨e, he, hhe⟩ := hex
      rcases List.mem_cons.mp he with rfl | he
      · exact absurd hhe hx
      · exact ⟨e, he, hhe⟩

theorem mem_aggregatedHits (hits : List Hit) (e : Hit) (he : e ∈ aggregatedHits hits) :
    e ∈ hits := by
  rcases (foldl_HitSet_insert_spec hits [] List.Pairwise.nil).1 e he with h | h
  · cases h
  · exact h

theorem pairwise_aggregatedHits (hits : List Hit) :
    (aggregatedHits hits).Pairwise (fun a b => HitEq a b = false) :=
  (foldl_HitSet_insert_spec hits [] List.Pairwise.nil).2.1

theorem countP_aggregatedHits (hits : List Hit) (h : Hit) (hh : h ∈ hits) :
    (aggregatedHits hits).countP (fun e => HitEq h e) = 1 :=
  countP_HitEq_eq_one _ h (pairwise_aggregatedHits hits)
    ((foldl_HitSet_insert_spec hits [] List.Pairwise.nil).2.2.2 h hh)

theorem eq_of_mem_of_HitEq (l : List Hit) (hl : l.Pairwise (fun a b => HitEq a b = false))
    (a b : Hit) (ha : a ∈ l) (hb : b ∈ l) (hab : HitEq a b = true) : a = b := by
  induction l with
  | nil => cases ha
  | cons x t ih =>
    rw [List.pairwise_cons] at hl
    obtain ⟨hxt, ht⟩ := hl
    rcases List.mem_cons.mp ha with hax | hat
    · rcases List.mem_cons.mp hb with hbx | hbt
      · rw [hax, hbx]
      · rw [hax, hxt b hbt] at hab
        exact absurd hab (by decide)
    · rcases List.mem_cons.mp hb with hbx | hbt
      · rw [hbx, HitEq_symm, hxt a hat] at hab
        exact absurd hab (by decide)
      · exact ih ht hat hbt

/-- C1, as stated, fails: two hits with equal `objectId`, `instancerId` and `instanceIndex`
but different `delegateId` are not equal under `HitEq`, and `aggregatedHits` holds both. -/
theorem aggregatedHits_keeps_both_delegates :
    hitOfDelegateA.objectId = hitOfDelegateB.objectId ∧
    hitOfDelegateA.instancerId = hitOfDelegateB.instancerId ∧
    hitOfDelegateA.instanceIndex = hitOfDelegateB.instanceIndex ∧
    HitEq hitOfDelegateA hitOfDelegateB = false ∧
    aggregatedHits [hitOfDelegateA, hitOfDelegateB] = [hitOfDelegateA, hitOfDelegateB] ∧
    hitOfDelegateA ∈ aggregatedHits [hitOfDelegateA, hitOfDelegateB] ∧
    hitOfDelegateB ∈ aggregatedHits [hitOfDelegateA, hitOfDelegateB] := by
  decide

/-- C1, amended: two hits with equal `delegateId`, `objectId`, `instancerId` and
`instanceIndex` are equal under `HitEq` whatever their `elementIndex`, `worldSpaceHitPoint`
and `ndcDepth`; `aggregatedHits` never holds both unless they are the same hit; and when both
are among the input hits there is one aggregated entry that stands for both, the only entry
`HitEq`-equal to either. -/
theorem aggregatedHits_collapses_same_key (hits : List Hit) (a b : Hit)
    (hd : a.delegateId = b.delegateId) (ho : a.objectId = b.objectId)
    (hi : a.instancerId = b.instancerId) (hx : a.instanceIndex = b.instanceIndex) :
    HitEq a b = true ∧
    (a ∈ aggregatedHits hits → b ∈ aggregatedHits hits → a = b) ∧
    (a ∈ hits → b ∈ hits →
      ∃ e ∈ aggregatedHits hits, HitEq a e = true ∧ HitEq b e = true ∧
        (aggregatedHits hits).countP (fun x => HitEq a x || HitEq b x) = 1 ∧
        ∀ x ∈ aggregatedHits hits, (HitEq a x = true ∨ HitEq b x = true) → x = e) := by
  have hab : HitEq a b = true := (HitEq_iff a b).mpr ⟨hd, ho, hi, hx⟩
  have hba : HitEq b a = true := by rw [HitEq_symm]; exact hab
  have hsame : ∀ x, HitEq b x = HitEq a x := by
    intro x
    rw [Bool.eq_iff_iff]
    exact ⟨fun h => HitEq_trans hab h, fun h => HitEq_trans hba h⟩
  refine ⟨hab, ?_, ?_⟩
  · intro ha hb
    exact eq_of_mem_of_HitEq _ (pairwise_aggregatedHits hits) a b ha hb hab
  · intro ha _
    obtain ⟨e, he, hae⟩ := (foldl_HitSet_insert_spec hits [] List.Pairwise.nil).2.2.2 a ha
    refine ⟨e, he, hae, by rw [hsame]; exact hae, ?_, ?_⟩
    · have hfun : (fun x => HitEq a x || HitEq b x) = (fun x => HitEq a x) := by
        funext x
        rw [hsame, Bool.or_self]
      rw [hfun]
      exact countP_aggregatedHits hits a ha
    · intro x hxm hor
      have hax : HitEq a x = true := by
        rcases hor with h | h
        · exact h
        · rw [← hsame]; exact h
      have hxe : HitEq x e = true := HitEq_trans (by rw [HitEq_symm]; exact hax) hae
      exact eq_of_mem_of_HitEq _ (pairwise_aggregatedHits hits) x e hxm he hxe

/-- C1, amended, at two hits on different elements of one instance: they differ in
`elementIndex`, `worldSpaceHitPoint` and `ndcDepth` and collapse to one entry. -/
theorem aggregatedHits_collapses_same_key_witness :
    (hitNear.worldSpaceHitPoint ≠ hitFar.worldSpaceHitPoint ∧ hitNear.ndcDepth ≠ hitFar.ndcDepth) ∧
    (HitEq hitNear hitFar = true ∧
    (hitNear ∈ aggregatedHits [hitNear, hitFar] → hitFar ∈ aggregatedHits [hitNear, hitFar] →
      hitNear = hitFar) ∧
    (hitNear ∈ [hitNear, hitFar] → hitFar ∈ [hitNear, hitFar] →
      ∃ e ∈ aggregatedHits [hitNear, hitFar], HitEq hitNear e = true ∧ HitEq hitFar e = true ∧
        (aggregatedHits [hitNear, hitFar]).countP (fun x => HitEq hitNear x || HitEq hitFar x)
          = 1 ∧
        ∀ x ∈ aggregatedHits [hitNear, hitFar],
          (HitEq hitNear x = true ∨ HitEq hitFar x = true) → x = e)) :=
  ⟨by decide,
   aggregatedHits_collapses_same_key [hitNear, hitFar] hitNear hitFar
     (by decide) (by decide) (by decide) (by decide)⟩

theorem HitEq_iff_hitKey (a b : Hit) : HitEq a b = true ↔ hitKey a = hitKey b := by
  rw [HitEq_iff]
  unfold SameKey hitKey
  simp only [Prod.mk.injEq]

/-- The insertion loop appends to the starting set a sublist of the hits it visits. -/
theorem foldl_HitSet_insert_sublist (hits : List Hit) :
    ∀ acc : List Hit, ∃ kept : List Hit, kept.Sublist hits ∧
      hits.foldl HitSet_insert acc = acc ++ kept := by
  induction hits with
  | nil =>
    intro acc
    exact ⟨[], List.Sublist.refl _, by simp⟩
  | cons x t ih =>
    intro acc
    obtain ⟨kept, hsub, hfold⟩ := ih (HitSet_insert acc x)
    rw [List.foldl_cons, hfold]
    unfold HitSet_insert
    by_cases hany : acc.any (fun e => HitEq e x) = true
    · rw [if_pos hany]
      exact ⟨kept, List.Sublist.cons x hsub, rfl⟩
    · rw [if_neg hany]
      exact ⟨x :: kept, List.Sublist.cons₂ x hsub, by simp⟩

theorem sublist_aggregatedHits (hits : List Hit) : (aggregatedHits hits).Sublist hits := by
  obtain ⟨kept, hsub, hfold⟩ := foldl_HitSet_insert_sublist hits []
  unfold aggregatedHits
  rw [hfold, List.nil_append]
  exact hsub

theorem exists_entry_aggregatedHits (hits : List Hit) (h : Hit) (hh : h ∈ hits) :
    ∃ e ∈ aggregatedHits hits, HitEq h e = true :=
  (foldl_HitSet_insert_spec hits [] List.Pairwise.nil).2.2.2 h hh

/-- C2: the aggregated set is a deduplication of the input by the key (`delegateId`,
`objectId`, `instancerId`, `instanceIndex`). `HitEq` holds of two hits exactly when their keys
are equal, so hits that differ only in `elementIndex`, `worldSpaceHitPoint` or `ndcDepth` are
`HitEq`-equal and hits that differ in a key field are not. Every entry is one of the input
hits (the entries are a sublist of the input); every input hit is `HitEq`-equal to exactly one
entry, the one entry with its key; no two entries are `HitEq`-equal, their keys are pairwise
different; the keys of the entries are the keys of the input hits; hits with the same key are
grouped into the same entry and hits with different keys into different entries. -/
theorem aggregatedHits_is_dedup (hits : List Hit) :
    (∀ e ∈ aggregatedHits hits, e ∈ hits) ∧
    (∀ h ∈ hits, (aggregatedHits hits).countP (fun e => HitEq h e) = 1) ∧
    (∀ h ∈ hits, ∃! e, e ∈ aggregatedHits hits ∧ HitEq h e = true) ∧
    (aggregatedHits hits).Pairwise (fun a b => HitEq a b = false) ∧
    (∀ a b : Hit, a.delegateId = b.delegateId → a.objectId = b.objectId →
      a.instancerId = b.instancerId → a.instanceIndex = b.instanceIndex →
      HitEq a b = true ∧ ∀ e ∈ aggregatedHits hits, HitEq a e = HitEq b e) ∧
    (∀ a b : Hit, HitEq a b = true ↔
      (a.delegateId = b.delegateId ∧ a.objectId = b.objectId ∧
        a.instancerId = b.instancerId ∧ a.instanceIndex = b.instanceIndex)) ∧
    (∀ a b : Hit, HitEq a b = true ↔ hitKey a = hitKey b) ∧
    (aggregatedHits hits).Sublist hits ∧
    (∀ h ∈ hits, (aggregatedHits hits).countP (fun e => decide (hitKey e = hitKey h)) = 1) ∧
    ((aggregatedHits hits).map hitKey).Nodup ∧
    (∀ k, k ∈ (aggregatedHits hits).map hitKey ↔ k ∈ hits.map hitKey) ∧
    (∀ a ∈ hits, ∀ b ∈ hits, ∀ ea ∈ aggregatedHits hits, ∀ eb ∈ aggregatedHits hits,
      HitEq a ea = true → HitEq b eb = true →
      ((a.delegateId = b.delegateId ∧ a.objectId = b.objectId ∧
        a.instancerId = b.instancerId ∧ a.instanceIndex = b.instanceIndex) ↔ ea = eb)) := by
  refine ⟨mem_aggregatedHits hits, countP_aggregatedHits hits, ?_,
    pairwise_aggregatedHits hits, ?_, HitEq_iff, HitEq_iff_hitKey, sublist_aggregatedHits hits,
    ?_, ?_, ?_, ?_⟩
  · intro h hh
    obtain ⟨e, he, hhe⟩ := exists_entry_aggregatedHits hits h hh
    refine ⟨e, ⟨he, hhe⟩, ?_⟩
    rintro y ⟨hy, hhy⟩
    exact eq_of_mem_of_HitEq _ (pairwise_aggregatedHits hits) y e hy he
      (HitEq_trans (by rw [HitEq_symm]; exact hhy) hhe)
  · intro a b hd ho hi hx
    have hab : HitEq a b = true := (HitEq_iff a b).mpr ⟨hd, ho, hi, hx⟩
    have hba : HitEq b a = true := by rw [HitEq_symm]; exact hab
    refine ⟨hab, ?_⟩
    intro e _
    rw [Bool.eq_iff_iff]
    exact ⟨fun h => HitEq_trans hba h, fun h => HitEq_trans hab h⟩
  · intro h hh
    have hfun : (fun e => decide (hitKey e = hitKey h)) = (fun e => HitEq h e) := by
      funext e
      rw [Bool.eq_iff_iff, decide_eq_true_iff, HitEq_iff_hitKey]
      exact eq_comm
    rw [hfun]
    exact countP_aggregatedHits hits h hh
  · rw [List.Nodup, List.pairwise_map]
    refine List.Pairwise.imp ?_ (pairwise_aggregatedHits hits)
    intro a b hab hkey
    rw [(HitEq_iff_hitKey a b).mpr hkey] at hab
    exact absurd hab (by decide)
  · intro k
    simp only [List.mem_map]
    constructor
    · rintro ⟨e, he, hk⟩
      exact ⟨e, mem_aggregatedHits hits e he, hk⟩
    · rintro ⟨h, hh, hk⟩
      obtain ⟨e, he, hhe⟩ := exists_entry_aggregatedHits hits h hh
      exact ⟨e, he, by rw [← hk]; exact ((HitEq_iff_hitKey h e).mp hhe).symm⟩
  · intro a _ b _ ea hea eb heb haea hbeb
    constructor
    · intro hkey
      have hab : HitEq a b = true := (HitEq_iff a b).mpr hkey
      have h1 : HitEq ea a = true := by rw [HitEq_symm]; exact haea
      exact eq_of_mem_of_HitEq _ (pairwise_aggregatedHits hits) ea eb hea heb
        (HitEq_trans h1 (HitEq_trans hab hbeb))
    · intro heq
      rw [← heq] at hbeb
      have h1 : HitEq ea b = true := by rw [HitEq_symm]; exact hbeb
      exact (HitEq_iff a b).mp (HitEq_trans haea h1)

/-- C2 on seven hits: the two hits on one instance are kept as one entry; the hits that
differ from them in `objectId`, in `instancerId` or in `instanceIndex`, and the hits of the two
delegates, each keep an entry of their own. -/
theorem aggregatedHits_is_dedup_witness :
    aggregatedHits [hitNear, hitFar, hitOtherObject, hitOtherInstancer, hitOtherInstance,
        hitOfDelegateA, hitOfDelegateB] =
      [hitNear, hitOtherObject, hitOtherInstancer, hitOtherInstance, hitOfDelegateA,
        hitOfDelegateB] ∧
    (aggregatedHits [hitNear, hitFar, hitOtherObject, hitOtherInstancer, hitOtherInstance,
        hitOfDelegateA, hitOfDelegateB]).countP (fun e => HitEq hitFar e) = 1 ∧
    (HitEq hitNear hitOtherObject = true ↔ hitKey hitNear = hitKey hitOtherObject) ∧
    HitEq hitNear hitOtherObject = false ∧ HitEq hitNear hitOtherInstancer = false ∧
    HitEq hitNear hitOtherInstance = false ∧ HitEq hitNear hitFar = true :=
  ⟨by decide,
   (aggregatedHits_is_dedup [hitNear, hitFar, hitOtherObject, hitOtherInstancer,
      hitOtherInstance, hitOfDelegateA, hitOfDelegateB]).2.1 hitFar (by decide),
   (aggregatedHits_is_dedup []).2.2.2.2.2.2.1 hitNear hitOtherObject,
   by decide, by decide, by decide, by decide⟩

end HdxUnitTestUtils

/-! ## Theorems: the subdivision attribute getters -/

namespace PxrUsdMayaMeshUtil

/-- The value `getSubdivScheme` returns, in terms of the token it found. -/
theorem getSubdivScheme_check (schemeToken defaultValue : TfToken) :
    (if schemeToken = "" then defaultValue
      else if schemeToken ≠ UsdGeomTokens.none ∧ schemeToken ≠ UsdGeomTokens.catmullClark ∧
          schemeToken ≠ UsdGeomTokens.loop ∧ schemeToken ≠ UsdGeomTokens.bilinear then
        defaultValue
      else schemeToken) =
    if schemeToken = UsdGeomTokens.none ∨ schemeToken = UsdGeomTokens.catmullClark ∨
        schemeToken = UsdGeomTokens.loop ∨ schemeToken = UsdGeomTokens.bilinear then schemeToken
    else defaultValue := by
  by_cases h : schemeToken = UsdGeomTokens.none ∨ schemeToken = UsdGeomTokens.catmullClark ∨
      schemeToken = UsdGeomTokens.loop ∨ schemeToken = UsdGeomTokens.bilinear
  · rw [if_pos h]
    have hne : schemeToken ≠ "" := by
      rcases h with h | h | h | h <;> (rw [h]; decide)
    rw [if_neg hne, if_neg]
    intro hcon
    rcases h with h | h | h | h
    · exact hcon.1 h
    · exact hcon.2.1 h
    · exact hcon.2.2.1 h
    · exact hcon.2.2.2 h
  · rw [if_neg h]
    push_neg at h
    split_ifs <;> rfl

/-- The value `getSubdivInterpBoundary` returns, in terms of the token it found. -/
theorem getSubdivInterpBoundary_check (interpBoundaryToken defaultValue : TfToken) :
    (if interpBoundaryToken = "" then defaultValue
      else if interpBoundaryToken ≠ UsdGeomTokens.none ∧
          interpBoundaryToken ≠ UsdGeomTokens.edgeAndCorner ∧
          interpBoundaryToken ≠ UsdGeomTokens.edgeOnly then
        defaultValue
      else interpBoundaryToken) =
    if interpBoundaryToken = UsdGeomTokens.none ∨
        interpBoundaryToken = UsdGeomTokens.edgeAndCorner ∨
        interpBoundaryToken = UsdGeomTokens.edgeOnly then interpBoundaryToken
    else defaultValue := by
  by_cases h : interpBoundaryToken = UsdGeomTokens.none ∨
      interpBoundaryToken = UsdGeomTokens.edgeAndCorner ∨
      interpBoundaryToken = UsdGeomTokens.edgeOnly
  · rw [if_pos h]
    have hne : interpBoundaryToken ≠ "" := by
      rcases h with h | h | h <;> (rw [h]; decide)
    rw [if_neg hne, if_neg]
    intro hcon
    rcases h with h | h | h
    · exact hcon.1 h
    · exact hcon.2.1 h
    · exact hcon.2.2 h
  · rw [if_neg h]
    push_neg at h
    split_ifs <;> rfl

/-- A mesh with the string attribute `USD_subdivisionScheme`: its value if it is in the
enumeration, the default otherwise. -/
theorem getSubdivScheme_of_usd (mesh : MFnMesh) (defaultValue : TfToken) (plug : MPlug)
    (h : mesh.findPlug _subdivTokens.USD_subdivisionScheme = some plug) :
    getSubdivScheme mesh defaultValue =
      if plug.asString = UsdGeomTokens.none ∨ plug.asString = UsdGeomTokens.catmullClark ∨
          plug.asString = UsdGeomTokens.loop ∨ plug.asString = UsdGeomTokens.bilinear
      then plug.asString else defaultValue := by
  unfold getSubdivScheme
  simp only [h]
  exact getSubdivScheme_check _ _

/-- A mesh without `USD_subdivisionScheme` but with the RenderMan for Maya int attribute. -/
theorem getSubdivScheme_of_rman (mesh : MFnMesh) (defaultValue : TfToken) (plug : MPlug)
    (h : mesh.findPlug _subdivTokens.USD_subdivisionScheme = none)
    (hr : mesh.findPlug "rman__torattr___subdivScheme" = some plug) :
    getSubdivScheme mesh defaultValue =
      if plug.asInt = 0 then UsdGeomTokens.catmullClark
      else if plug.asInt = 1 then UsdGeomTokens.loop
      else defaultValue := by
  unfold getSubdivScheme
  simp only [h, hr]
  rw [getSubdivScheme_check]
  by_cases h0 : plug.asInt = 0
  · rw [if_pos h0]
    exact if_pos (Or.inr (Or.inl rfl))
  · rw [if_neg h0]
    by_cases h1 : plug.asInt = 1
    · rw [if_pos h1]
      exact if_pos (Or.inr (Or.inr (Or.inl rfl)))
    · rw [if_neg h1]
      split_ifs <;> rfl

/-- A mesh with neither scheme attribute. -/
theorem getSubdivScheme_of_absent (mesh : MFnMesh) (defaultValue : TfToken)
    (h : mesh.findPlug _subdivTokens.USD_subdivisionScheme = none)
    (hr : mesh.findPlug "rman__torattr___subdivScheme" = none) :
    getSubdivScheme mesh defaultValue = defaultValue := by
  unfold getSubdivScheme
  simp only [h, hr]
  rw [getSubdivScheme_check]
  split_ifs <;> rfl

/-- A mesh with the string attribute `USD_interpolateBoundary`. -/
theorem getSubdivInterpBoundary_of_usd (mesh : MFnMesh) (defaultValue : TfToken)
    (plug : MPlug) (h : mesh.findPlug _subdivTokens.USD_interpolateBoundary = some plug) :
    getSubdivInterpBoundary mesh defaultValue =
      if plug.asString = UsdGeomTokens.none ∨ plug.asString = UsdGeomTokens.edgeAndCorner ∨
          plug.asString = UsdGeomTokens.edgeOnly
      then plug.asString else defaultValue := by
  unfold getSubdivInterpBoundary
  simp only [h]
  exact getSubdivInterpBoundary_check _ _

/-- A mesh without `USD_interpolateBoundary` but with the RenderMan for Maya int attribute. -/
theorem getSubdivInterpBoundary_of_rman (mesh : MFnMesh) (defaultValue : TfToken)
    (plug : MPlug) (h : mesh.findPlug _subdivTokens.USD_interpolateBoundary = none)
    (hr : mesh.findPlug "rman__torattr___subdivInterp" = some plug) :
    getSubdivInterpBoundary mesh defaultValue =
      if plug.asInt = 0 then UsdGeomTokens.none
      else if plug.asInt = 1 then UsdGeomTokens.edgeAndCorner
      else if plug.asInt = 2 then UsdGeomTokens.edgeOnly
      else defaultValue := by
  unfold getSubdivInterpBoundary
  simp only [h, hr]
  rw [getSubdivInterpBoundary_check]
  by_cases h0 : plug.asInt = 0
  · rw [if_pos h0]
    exact if_pos (Or.inl rfl)
  · rw [if_neg h0]
    by_cases h1 : plug.asInt = 1
    · rw [if_pos h1]
      exact if_pos (Or.inr (Or.inl rfl))
    · rw [if_neg h1]
      by_cases h2 : plug.asInt = 2
      · rw [if_pos h2]
        exact if_pos (Or.inr (Or.inr rfl))
      · rw [if_neg h2]
        split_ifs <;> rfl

/-- A mesh with neither interpolate-boundary attribute. -/
theorem getSubdivInterpBoundary_of_absent (mesh : MFnMesh) (defaultValue : TfToken)
    (h : mesh.findPlug _subdivTokens.USD_interpolateBoundary = none)
    (hr : mesh.findPlug "rman__torattr___subdivInterp" = none) :
    getSubdivInterpBoundary mesh defaultValue = defaultValue := by
  unfold getSubdivInterpBoundary
  simp only [h, hr]
  rw [getSubdivInterpBoundary_check]
  split_ifs <;> rfl

/-- The value `getSubdivFVLinearInterpolation` returns, in terms of the token it found. -/
theorem getSubdivFVLinearInterpolation_check (t : TfToken) :
    (if t ≠ "" ∧ t ≠ UsdGeomTokens.all ∧ t ≠ UsdGeomTokens.none ∧
        t ≠ UsdGeomTokens.boundaries ∧ t ≠ UsdGeomTokens.cornersOnly ∧
        t ≠ UsdGeomTokens.cornersPlus1 ∧ t ≠ UsdGeomTokens.cornersPlus2 then ""
      else t) =
    if t = UsdGeomTokens.all ∨ t = UsdGeomTokens.none ∨ t = UsdGeomTokens.boundaries ∨
        t = UsdGeomTokens.cornersOnly ∨ t = UsdGeomTokens.cornersPlus1 ∨
        t = UsdGeomTokens.cornersPlus2 then t
    else "" := by
  by_cases h : t = UsdGeomTokens.all ∨ t = UsdGeomTokens.none ∨ t = UsdGeomTokens.boundaries ∨
      t = UsdGeomTokens.cornersOnly ∨ t = UsdGeomTokens.cornersPlus1 ∨
      t = UsdGeomTokens.cornersPlus2
  · rw [if_pos h, if_neg]
    rintro ⟨_, h1, h2, h3, h4, h5, h6⟩
    rcases h with h | h | h | h | h | h
    · exact h1 h
    · exact h2 h
    · exact h3 h
    · exact h4 h
    · exact h5 h
    · exact h6 h
  · rw [if_neg h]
    push_neg at h
    by_cases he : t = ""
    · rw [if_neg (fun hc => hc.1 he), he]
    · rw [if_pos ⟨he, h⟩]

/-- C3: on a mesh without `USD_faceVaryingLinearInterpolation` that has the legacy string
attribute `USD_faceVaryingInterpolateBoundary`, `getSubdivFVLinearInterpolation` returns the
current token of the legacy value: `bilinear` gives `all`, `edgeAndCorner` gives
`cornersPlus1`, `alwaysSharp` gives `boundaries`, `edgeOnly` gives `none`. -/
theorem getSubdivFVLinearInterpolation_translates_legacy (mesh : MFnMesh) (plug : MPlug)
    (hnew : mesh.findPlug _subdivTokens.USD_faceVaryingLinearInterpolation = none)
    (hold : mesh.findPlug _subdivTokens.USD_faceVaryingInterpolateBoundary = some plug) :
    (plug.asString = UsdGeomTokens.bilinear →
      getSubdivFVLinearInterpolation mesh = UsdGeomTokens.all) ∧
    (plug.asString = UsdGeomTokens.edgeAndCorner →
      getSubdivFVLinearInterpolation mesh = UsdGeomTokens.cornersPlus1) ∧
    (plug.asString = _meshTokens.alwaysSharp →
      getSubdivFVLinearInterpolation mesh = UsdGeomTokens.boundaries) ∧
    (plug.asString = UsdGeomTokens.edgeOnly →
      getSubdivFVLinearInterpolation mesh = UsdGeomTokens.none) := by
  unfold getSubdivFVLinearInterpolation _getSubdivFVInterpBoundary
  simp only [hnew, hold]
  refine ⟨?_, ?_, ?_, ?_⟩ <;> (intro hv; rw [hv]; decide)

/-- C3 on four meshes, one for each legacy value. -/
theorem getSubdivFVLinearInterpolation_translates_legacy_witness :
    getSubdivFVLinearInterpolation (meshWithLegacyFV "bilinear") = "all" ∧
    getSubdivFVLinearInterpolation (meshWithLegacyFV "edgeAndCorner") = "cornersPlus1" ∧
    getSubdivFVLinearInterpolation (meshWithLegacyFV "alwaysSharp") = "boundaries" ∧
    getSubdivFVLinearInterpolation (meshWithLegacyFV "edgeOnly") = "none" :=
  ⟨(getSubdivFVLinearInterpolation_translates_legacy (meshWithLegacyFV "bilinear")
      ⟨"bilinear", 0, false⟩ (by decide) (by decide)).1 (by decide),
   (getSubdivFVLinearInterpolation_translates_legacy (meshWithLegacyFV "edgeAndCorner")
      ⟨"edgeAndCorner", 0, false⟩ (by decide) (by decide)).2.1 (by decide),
   (getSubdivFVLinearInterpolation_translates_legacy (meshWithLegacyFV "alwaysSharp")
      ⟨"alwaysSharp", 0, false⟩ (by decide) (by decide)).2.2.1 (by decide),
   (getSubdivFVLinearInterpolation_translates_legacy (meshWithLegacyFV "edgeOnly")
      ⟨"edgeOnly", 0, false⟩ (by decide) (by decide)).2.2.2 (by decide)⟩

/-- C4: `getSubdivScheme` returns `defaultValue` or one of `none`, `catmullClark`, `loop`,
`bilinear`; it returns `defaultValue` when the mesh has neither scheme attribute, when the
string found is empty or outside the enumeration, and when the RenderMan int is neither 0 nor
1; otherwise it returns the value found (the string, or `catmullClark` for 0 and `loop` for
1). -/
theorem getSubdivScheme_result (mesh : MFnMesh) (defaultValue : TfToken) :
    (getSubdivScheme mesh defaultValue = defaultValue ∨
      getSubdivScheme mesh defaultValue = UsdGeomTokens.none ∨
      getSubdivScheme mesh defaultValue = UsdGeomTokens.catmullClark ∨
      getSubdivScheme mesh defaultValue = UsdGeomTokens.loop ∨
      getSubdivScheme mesh defaultValue = UsdGeomTokens.bilinear) ∧
    (mesh.findPlug _subdivTokens.USD_subdivisionScheme = none →
      mesh.findPlug "rman__torattr___subdivScheme" = none →
      getSubdivScheme mesh defaultValue = defaultValue) ∧
    (∀ plug, mesh.findPlug _subdivTokens.USD_subdivisionScheme = some plug →
      (plug.asString = "" ∨
        (plug.asString ≠ UsdGeomTokens.none ∧ plug.asString ≠ UsdGeomTokens.catmullClark ∧
          plug.asString ≠ UsdGeomTokens.loop ∧ plug.asString ≠ UsdGeomTokens.bilinear)) →
      getSubdivScheme mesh defaultValue = defaultValue) ∧
    (∀ plug, mesh.findPlug _subdivTokens.USD_subdivisionScheme = some plug →
      (plug.asString = UsdGeomTokens.none ∨ plug.asString = UsdGeomTokens.catmullClark ∨
        plug.asString = UsdGeomTokens.loop ∨ plug.asString = UsdGeomTokens.bilinear) →
      getSubdivScheme mesh defaultValue = plug.asString) ∧
    (∀ plug, mesh.findPlug _subdivTokens.USD_subdivisionScheme = none →
      mesh.findPlug "rman__torattr___subdivScheme" = some plug →
      (plug.asInt = 0 → getSubdivScheme mesh defaultValue = UsdGeomTokens.catmullClark) ∧
      (plug.asInt = 1 → getSubdivScheme mesh defaultValue = UsdGeomTokens.loop) ∧
      (plug.asInt ≠ 0 → plug.asInt ≠ 1 → getSubdivScheme mesh defaultValue = defaultValue)) := by
  refine ⟨?_, getSubdivScheme_of_absent mesh defaultValue, ?_, ?_, ?_⟩
  · cases h : mesh.findPlug _subdivTokens.USD_subdivisionScheme with
    | some plug =>
      rw [getSubdivScheme_of_usd mesh defaultValue plug h]
      split_ifs with hin
      · exact Or.inr hin
      · exact Or.inl rfl
    | none =>
      cases hr : mesh.findPlug "rman__torattr___subdivScheme" with
      | some plug =>
        rw [getSubdivScheme_of_rman mesh defaultValue plug h hr]
        split_ifs
        · exact Or.inr (Or.inr (Or.inl rfl))
        · exact Or.inr (Or.inr (Or.inr (Or.inl rfl)))
        · exact Or.inl rfl
      | none => exact Or.inl (getSubdivScheme_of_absent mesh defaultValue h hr)
  · intro plug h hbad
    rw [getSubdivScheme_of_usd mesh defaultValue plug h, if_neg]
    intro hin
    rcases hbad with he | ⟨h1, h2, h3, h4⟩
    · rw [he] at hin
      revert hin
      decide
    · rcases hin with hin | hin | hin | hin
      · exact h1 hin
      · exact h2 hin
      · exact h3 hin
      · exact h4 hin
  · intro plug h hin
    rw [getSubdivScheme_of_usd mesh defaultValue plug h, if_pos hin]
  · intro plug h hr
    rw [getSubdivScheme_of_rman mesh defaultValue plug h hr]
    refine ⟨fun h0 => if_pos h0, fun h1 => ?_, fun h0 h1 => ?_⟩
    · rw [if_neg (by rw [h1]; decide), if_pos h1]
    · rw [if_neg h0, if_neg h1]

/-- C5: `getSubdivInterpBoundary` returns `defaultValue` or one of `none`, `edgeAndCorner`,
`edgeOnly`; it returns `defaultValue` when the mesh has neither interpolate-boundary
attribute, when the string found is empty or outside the enumeration, and when the RenderMan
int is none of 0, 1, 2; otherwise it returns the value found. -/
theorem getSubdivInterpBoundary_result (mesh : MFnMesh) (defaultValue : TfToken) :
    (getSubdivInterpBoundary mesh defaultValue = defaultValue ∨
      getSubdivInterpBoundary mesh defaultValue = UsdGeomTokens.none ∨
      getSubdivInterpBoundary mesh defaultValue = UsdGeomTokens.edgeAndCorner ∨
      getSubdivInterpBoundary mesh defaultValue = UsdGeomTokens.edgeOnly) ∧
    (mesh.findPlug _subdivTokens.USD_interpolateBoundary = none →
      mesh.findPlug "rman__torattr___subdivInterp" = none →
      getSubdivInterpBoundary mesh defaultValue = defaultValue) ∧
    (∀ plug, mesh.findPlug _subdivTokens.USD_interpolateBoundary = some plug →
      (plug.asString = "" ∨
        (plug.asString ≠ UsdGeomTokens.none ∧ plug.asString ≠ UsdGeomTokens.edgeAndCorner ∧
          plug.asString ≠ UsdGeomTokens.edgeOnly)) →
      getSubdivInterpBoundary mesh defaultValue = defaultValue) ∧
    (∀ plug, mesh.findPlug _subdivTokens.USD_interpolateBoundary = some plug →
      (plug.asString = UsdGeomTokens.none ∨ plug.asString = UsdGeomTokens.edgeAndCorner ∨
        plug.asString = UsdGeomTokens.edgeOnly) →
      getSubdivInterpBoundary mesh defaultValue = plug.asString) ∧
    (∀ plug, mesh.findPlug _subdivTokens.USD_interpolateBoundary = none →
      mesh.findPlug "rman__torattr___subdivInterp" = some plug →
      (plug.asInt = 0 → getSubdivInterpBoundary mesh defaultValue = UsdGeomTokens.none) ∧
      (plug.asInt = 1 →
        getSubdivInterpBoundary mesh defaultValue = UsdGeomTokens.edgeAndCorner) ∧
      (plug.asInt = 2 → getSubdivInterpBoundary mesh defaultValue = UsdGeomTokens.edgeOnly) ∧
      (plug.asInt ≠ 0 → plug.asInt ≠ 1 → plug.asInt ≠ 2 →
        getSubdivInterpBoundary mesh defaultValue = defaultValue)) := by
  refine ⟨?_, getSubdivInterpBoundary_of_absent mesh defaultValue, ?_, ?_, ?_⟩
  · cases h : mesh.findPlug _subdivTokens.USD_interpolateBoundary with
    | some plug =>
      rw [getSubdivInterpBoundary_of_usd mesh defaultValue plug h]
      split_ifs with hin
      · exact Or.inr hin
      · exact Or.inl rfl
    | none =>
      cases hr : mesh.findPlug "rman__torattr___subdivInterp" with
      | some plug =>
        rw [getSubdivInterpBoundary_of_rman mesh defaultValue plug h hr]
        split_ifs
        · exact Or.inr (Or.inl rfl)
        · exact Or.inr (Or.inr (Or.inl rfl))
        · exact Or.inr (Or.inr (Or.inr rfl))
        · exact Or.inl rfl
      | none => exact Or.inl (getSubdivInterpBoundary_of_absent mesh defaultValue h hr)
  · intro plug h hbad
    rw [getSubdivInterpBoundary_of_usd mesh defaultValue plug h, if_neg]
    intro hin
    rcases hbad with he | ⟨h1, h2, h3⟩
    · rw [he] at hin
      revert hin
      decide
    · rcases hin with hin | hin | hin
      · exact h1 hin
      · exact h2 hin
      · exact h3 hin
  · intro plug h hin
    rw [getSubdivInterpBoundary_of_usd mesh defaultValue plug h, if_pos hin]
  · intro plug h hr
    rw [getSubdivInterpBoundary_of_rman mesh defaultValue plug h hr]
    refine ⟨fun h0 => if_pos h0, fun h1 => ?_, fun h2 => ?_, fun h0 h1 h2 => ?_⟩
    · rw [if_neg (by rw [h1]; decide), if_pos h1]
    · rw [if_neg (by rw [h2]; decide), if_neg (by rw [h2]; decide), if_pos h2]
    · rw [if_neg h0, if_neg h1, if_neg h2]

/-- C6: `getSubdivFVLinearInterpolation` returns the empty token or one of `all`, `none`,
`boundaries`, `cornersOnly`, `cornersPlus1`, `cornersPlus2`. The value found (the string of
`USD_faceVaryingLinearInterpolation`, or else what `_getSubdivFVInterpBoundary` gives after
the legacy translation) is returned when it is in the enumeration and replaced by the empty
token when it is not; a legacy string that needs no translation and is outside the
enumeration gives the empty token; a mesh with none of the three attributes gives the empty
token. -/
theorem getSubdivFVLinearInterpolation_result (mesh : MFnMesh) :
    (getSubdivFVLinearInterpolation mesh = "" ∨
      getSubdivFVLinearInterpolation mesh = UsdGeomTokens.all ∨
      getSubdivFVLinearInterpolation mesh = UsdGeomTokens.none ∨
      getSubdivFVLinearInterpolation mesh = UsdGeomTokens.boundaries ∨
      getSubdivFVLinearInterpolation mesh = UsdGeomTokens.cornersOnly ∨
      getSubdivFVLinearInterpolation mesh = UsdGeomTokens.cornersPlus1 ∨
      getSubdivFVLinearInterpolation mesh = UsdGeomTokens.cornersPlus2) ∧
    (∀ plug, mesh.findPlug _subdivTokens.USD_faceVaryingLinearInterpolation = some plug →
      getSubdivFVLinearInterpolation mesh =
        if plug.asString = UsdGeomTokens.all ∨ plug.asString = UsdGeomTokens.none ∨
            plug.asString = UsdGeomTokens.boundaries ∨
            plug.asString = UsdGeomTokens.cornersOnly ∨
            plug.asString = UsdGeomTokens.cornersPlus1 ∨
            plug.asString = UsdGeomTokens.cornersPlus2
        then plug.asString else "") ∧
    (mesh.findPlug _subdivTokens.USD_faceVaryingLinearInterpolation = none →
      getSubdivFVLinearInterpolation mesh =
        if _getSubdivFVInterpBoundary mesh = UsdGeomTokens.all ∨
            _getSubdivFVInterpBoundary mesh = UsdGeomTokens.none ∨
            _getSubdivFVInterpBoundary mesh = UsdGeomTokens.boundaries ∨
            _getSubdivFVInterpBoundary mesh = UsdGeomTokens.cornersOnly ∨
            _getSubdivFVInterpBoundary mesh = UsdGeomTokens.cornersPlus1 ∨
            _getSubdivFVInterpBoundary mesh = UsdGeomTokens.cornersPlus2
        then _getSubdivFVInterpBoundary mesh else "") ∧
    (∀ plug, mesh.findPlug _subdivTokens.USD_faceVaryingLinearInterpolation = none →
      mesh.findPlug _subdivTokens.USD_faceVaryingInterpolateBoundary = some plug →
      plug.asString ≠ UsdGeomTokens.bilinear → plug.asString ≠ UsdGeomTokens.edgeAndCorner →
      plug.asString ≠ _meshTokens.alwaysSharp → plug.asString ≠ UsdGeomTokens.edgeOnly →
      plug.asString ≠ UsdGeomTokens.all → plug.asString ≠ UsdGeomTokens.none →
      plug.asString ≠ UsdGeomTokens.boundaries → plug.asString ≠ UsdGeomTokens.cornersOnly →
      plug.asString ≠ UsdGeomTokens.cornersPlus1 →
      plug.asString ≠ UsdGeomTokens.cornersPlus2 →
      getSubdivFVLinearInterpolation mesh = "") ∧
    (mesh.findPlug _subdivTokens.USD_faceVaryingLinearInterpolation = none →
      mesh.findPlug _subdivTokens.USD_faceVaryingInterpolateBoundary = none →
      mesh.findPlug "rman__torattr___subdivFacevaryingInterp" = none →
      getSubdivFVLinearInterpolation mesh = "") := by
  have hnew : ∀ plug,
      mesh.findPlug _subdivTokens.USD_faceVaryingLinearInterpolation = some plug →
      getSubdivFVLinearInterpolation mesh =
        if plug.asString = UsdGeomTokens.all ∨ plug.asString = UsdGeomTokens.none ∨
            plug.asString = UsdGeomTokens.boundaries ∨
            plug.asString = UsdGeomTokens.cornersOnly ∨
            plug.asString = UsdGeomTokens.cornersPlus1 ∨
            plug.asString = UsdGeomTokens.cornersPlus2
        then plug.asString else "" := by
    intro plug h
    unfold getSubdivFVLinearInterpolation
    simp only [h]
    exact getSubdivFVLinearInterpolation_check _
  have hold : mesh.findPlug _subdivTokens.USD_faceVaryingLinearInterpolation = none →
      getSubdivFVLinearInterpolation mesh =
        if _getSubdivFVInterpBoundary mesh = UsdGeomTokens.all ∨
            _getSubdivFVInterpBoundary mesh = UsdGeomTokens.none ∨
            _getSubdivFVInterpBoundary mesh = UsdGeomTokens.boundaries ∨
            _getSubdivFVInterpBoundary mesh = UsdGeomTokens.cornersOnly ∨
            _getSubdivFVInterpBoundary mesh = UsdGeomTokens.cornersPlus1 ∨
            _getSubdivFVInterpBoundary mesh = UsdGeomTokens.cornersPlus2
        then _getSubdivFVInterpBoundary mesh else "" := by
    intro h
    unfold getSubdivFVLinearInterpolation
    simp only [h]
    exact getSubdivFVLinearInterpolation_check _
  refine ⟨?_, hnew, hold, ?_, ?_⟩
  · cases h : mesh.findPlug _subdivTokens.USD_faceVaryingLinearInterpolation with
    | some plug =>
      rw [hnew plug h]
      split_ifs with hin
      · exact Or.inr hin
      · exact Or.inl rfl
    | none =>
      rw [hold h]
      split_ifs with hin
      · exact Or.inr hin
      · exact Or.inl rfl
  · intro plug h hl n1 n2 n3 n4 m1 m2 m3 m4 m5 m6
    have ht : _getSubdivFVInterpBoundary mesh = plug.asString := by
      unfold _getSubdivFVInterpBoundary
      simp only [hl]
      rw [if_neg n1, if_neg n2, if_neg n3, if_neg n4]
    rw [hold h, ht, if_neg]
    rintro (hin | hin | hin | hin | hin | hin)
    · exact m1 hin
    · exact m2 hin
    · exact m3 hin
    · exact m4 hin
    · exact m5 hin
    · exact m6 hin
  · intro h hl hr
    have ht : _getSubdivFVInterpBoundary mesh = "" := by
      unfold _getSubdivFVInterpBoundary
      simp only [hl, hr]
    rw [hold h, ht]
    decide

/-- C9: both getters look at the USD string attribute first. Two meshes whose
`USD_subdivisionScheme` (resp. `USD_interpolateBoundary`) plugs hold the same string give the
same token for the same default, whatever else they carry, the RenderMan int attribute
included. Without the USD attribute, the RenderMan int 0 or 1 gives `catmullClark` or `loop`
(resp. 0, 1, 2 give `none`, `edgeAndCorner`, `edgeOnly`) and any other int gives
`defaultValue`. -/
theorem getters_prefer_usd_attribute (defaultValue : TfToken) :
    (∀ (mesh1 mesh2 : MFnMesh) (plug1 plug2 : MPlug),
      mesh1.findPlug _subdivTokens.USD_subdivisionScheme = some plug1 →
      mesh2.findPlug _subdivTokens.USD_subdivisionScheme = some plug2 →
      plug1.asString = plug2.asString →
      getSubdivScheme mesh1 defaultValue = getSubdivScheme mesh2 defaultValue) ∧
    (∀ (mesh1 mesh2 : MFnMesh) (plug1 plug2 : MPlug),
      mesh1.findPlug _subdivTokens.USD_interpolateBoundary = some plug1 →
      mesh2.findPlug _subdivTokens.USD_interpolateBoundary = some plug2 →
      plug1.asString = plug2.asString →
      getSubdivInterpBoundary mesh1 defaultValue =
        getSubdivInterpBoundary mesh2 defaultValue) ∧
    (∀ (mesh : MFnMesh) (plug : MPlug),
      mesh.findPlug _subdivTokens.USD_subdivisionScheme = none →
      mesh.findPlug "rman__torattr___subdivScheme" = some plug →
      getSubdivScheme mesh defaultValue =
        if plug.asInt = 0 then UsdGeomTokens.catmullClark
        else if plug.asInt = 1 then UsdGeomTokens.loop
        else defaultValue) ∧
    (∀ (mesh : MFnMesh) (plug : MPlug),
      mesh.findPlug _subdivTokens.USD_interpolateBoundary = none →
      mesh.findPlug "rman__torattr___subdivInterp" = some plug →
      getSubdivInterpBoundary mesh defaultValue =
        if plug.asInt = 0 then UsdGeomTokens.none
        else if plug.asInt = 1 then UsdGeomTokens.edgeAndCorner
        else if plug.asInt = 2 then UsdGeomTokens.edgeOnly
        else defaultValue) := by
  refine ⟨?_, ?_, ?_, ?_⟩
  · intro mesh1 mesh2 plug1 plug2 h1 h2 he
    rw [getSubdivScheme_of_usd mesh1 defaultValue plug1 h1,
      getSubdivScheme_of_usd mesh2 defaultValue plug2 h2, he]
  · intro mesh1 mesh2 plug1 plug2 h1 h2 he
    rw [getSubdivInterpBoundary_of_usd mesh1 defaultValue plug1 h1,
      getSubdivInterpBoundary_of_usd mesh2 defaultValue plug2 h2, he]
  · intro mesh plug h hr
    exact getSubdivScheme_of_rman mesh defaultValue plug h hr
  · intro mesh plug h hr
    exact getSubdivInterpBoundary_of_rman mesh defaultValue plug h hr

/-- C9 on concrete meshes: with `USD_subdivisionScheme` holding `bilinear`, a mesh without the
RenderMan attribute and a mesh whose RenderMan attribute says 1 (`loop`) both give
`bilinear`. -/
theorem getters_prefer_usd_attribute_witness :
    getSubdivScheme (meshWithPlugs [("USD_subdivisionScheme", ⟨"bilinear", 0, false⟩)]) "none" =
      getSubdivScheme (meshWithPlugs [("rman__torattr___subdivScheme", ⟨"", 1, true⟩),
        ("USD_subdivisionScheme", ⟨"bilinear", 0, false⟩)]) "none" :=
  (getters_prefer_usd_attribute "none").1
    (meshWithPlugs [("USD_subdivisionScheme", ⟨"bilinear", 0, false⟩)])
    (meshWithPlugs [("rman__torattr___subdivScheme", ⟨"", 1, true⟩),
      ("USD_subdivisionScheme", ⟨"bilinear", 0, false⟩)])
    ⟨"bilinear", 0, false⟩ ⟨"bilinear", 0, false⟩ (by decide) (by decide) rfl

/-- C10: `getEmitNormals` returns the boolean of the mesh's `USD_EmitNormals` attribute when
the attribute exists, whatever the scheme; when it does not exist it returns true exactly when
the scheme is `none`. -/
theorem getEmitNormals_result (mesh : MFnMesh) (subdivScheme : TfToken) :
    (∀ plug, mesh.findPlug _meshTokens.USD_EmitNormals = some plug →
      getEmitNormals mesh subdivScheme = plug.asBool) ∧
    (mesh.findPlug _meshTokens.USD_EmitNormals = none →
      (getEmitNormals mesh subdivScheme = true ↔ subdivScheme = UsdGeomTokens.none)) := by
  constructor
  · intro plug h
    unfold getEmitNormals
    rw [h]
  · intro h
    unfold getEmitNormals
    rw [h]
    simp

end PxrUsdMayaMeshUtil

/-! ## Theorems: `GetMeshNormals` -/

namespace PxrUsdMayaMeshUtil

theorem length_VtArray_resize (normalsArray : List GfVec3f) (n : Nat) :
    (VtArray_resize normalsArray n).length = n := by
  unfold VtArray_resize
  rw [List.length_append, List.length_take, List.length_replicate]
  omega

theorem VtArray_assign_eq_some {normalsArray out : List GfVec3f} {fvi : Nat} {normal : GfVec3f}
    (h : VtArray_assign normalsArray fvi normal = some out) :
    fvi < normalsArray.length ∧ out = normalsArray.set fvi normal := by
  unfold VtArray_assign at h
  by_cases hlt : fvi < normalsArray.length
  · rw [if_pos hlt] at h
    exact ⟨hlt, (Option.some.inj h).symm⟩
  · rw [if_neg hlt] at h
    cases h

/-- One step of the loop at a face vertex whose `normalId` is in range. -/
theorem GetMeshNormals_loop_cons_ok (mayaNormals : List GfVec3f) (normalId : Int)
    (rest : List Int) (fvi : Nat) (normalsArray : List GfVec3f)
    (hid : ¬ (normalId < 0 ∨ mayaNormals.length ≤ normalId.toNat))
    (hfvi : fvi < normalsArray.length) :
    ∃ normal, mayaNormals[normalId.toNat]? = some normal ∧
      GetMeshNormals_loop mayaNormals (normalId :: rest) fvi normalsArray =
        GetMeshNormals_loop mayaNormals rest (fvi + 1) (normalsArray.set fvi normal) := by
  have hlt : normalId.toNat < mayaNormals.length := by
    by_contra hc
    exact hid (Or.inr (Nat.le_of_not_lt hc))
  refine ⟨mayaNormals[normalId.toNat], List.getElem?_eq_getElem hlt, ?_⟩
  rw [GetMeshNormals_loop, if_neg hid]
  simp only [List.getElem?_eq_getElem hlt, VtArray_assign, if_pos hfvi]

/-- The loop returns when the array has room for the face vertices still to visit. -/
theorem GetMeshNormals_loop_returns (mayaNormals : List GfVec3f) (ids : List Int) :
    ∀ (fvi : Nat) (normalsArray : List GfVec3f), fvi + ids.length ≤ normalsArray.length →
      ∃ result out, GetMeshNormals_loop mayaNormals ids fvi normalsArray = some (result, out) ∧
        (result = false ↔ ∃ normalId ∈ ids, normalId < 0 ∨ mayaNormals.length ≤ normalId.toNat) := by
  induction ids with
  | nil =>
    intro fvi normalsArray _
    refine ⟨true, normalsArray, by rw [GetMeshNormals_loop], ?_⟩
    constructor
    · intro h
      cases h
    · rintro ⟨_, hmem, _⟩
      cases hmem
  | cons normalId rest ih =>
    intro fvi normalsArray hroom
    rw [List.length_cons] at hroom
    by_cases hid : normalId < 0 ∨ mayaNormals.length ≤ normalId.toNat
    · refine ⟨false, normalsArray, by rw [GetMeshNormals_loop, if_pos hid], ?_⟩
      exact ⟨fun _ => ⟨normalId, List.mem_cons_self _ _, hid⟩, fun _ => rfl⟩
    · obtain ⟨normal, _, hstep⟩ := GetMeshNormals_loop_cons_ok mayaNormals normalId rest fvi
        normalsArray hid (by omega)
      obtain ⟨result, out, hres, hiff⟩ := ih (fvi + 1) (normalsArray.set fvi normal)
        (by rw [List.length_set]; omega)
      refine ⟨result, out, by rw [hstep, hres], ?_⟩
      rw [hiff]
      constructor
      · rintro ⟨x, hx, hbad⟩
        exact ⟨x, List.mem_cons_of_mem _ hx, hbad⟩
      · rintro ⟨x, hx, hbad⟩
        rcases List.mem_cons.mp hx with hx | hx
        · rw [hx] at hbad
          exact absurd hbad hid
        · exact ⟨x, hx, hbad⟩

/-- What the loop has written when it ends with `true`. -/
theorem GetMeshNormals_loop_true (mayaNormals : List GfVec3f) (ids : List Int) :
    ∀ (fvi : Nat) (normalsArray out : List GfVec3f),
      GetMeshNormals_loop mayaNormals ids fvi normalsArray = some (true, out) →
      out.length = normalsArray.length ∧
      (∀ j, j < fvi → out[j]? = normalsArray[j]?) ∧
      (∀ i (hi : i < ids.length), 0 ≤ ids[i] ∧ (ids[i]).toNat < mayaNormals.length ∧
        ∃ normal, mayaNormals[(ids[i]).toNat]? = some normal ∧ out[fvi + i]? = some normal) := by
  induction ids with
  | nil =>
    intro fvi normalsArray out h
    rw [GetMeshNormals_loop] at h
    have hout : normalsArray = out := (Prod.mk.inj (Option.some.inj h)).2
    subst hout
    refine ⟨rfl, fun _ _ => rfl, ?_⟩
    intro i hi
    exact absurd hi (Nat.not_lt_zero i)
  | cons normalId rest ih =>
    intro fvi normalsArray out h
    by_cases hid : normalId < 0 ∨ mayaNormals.length ≤ normalId.toNat
    · rw [GetMeshNormals_loop, if_pos hid] at h
      have hb : false = true := (Prod.mk.inj (Option.some.inj h)).1
      cases hb
    · have hlt : normalId.toNat < mayaNormals.length := by
        by_contra hc
        exact hid (Or.inr (Nat.le_of_not_lt hc))
      have hnonneg : 0 ≤ normalId := by
        by_contra hc
        exact hid (Or.inl (Int.lt_of_not_ge hc))
      by_cases hfvi : fvi < normalsArray.length
      · obtain ⟨normal, hnormal, hstep⟩ := GetMeshNormals_loop_cons_ok mayaNormals normalId
          rest fvi normalsArray hid hfvi
        rw [hstep] at h
        obtain ⟨hlen, hkeep, hnew⟩ := ih (fvi + 1) (normalsArray.set fvi normal) out h
        rw [List.length_set] at hlen
        refine ⟨hlen, ?_, ?_⟩
        · intro j hj
          rw [hkeep j (by omega), List.getElem?_set_ne (by omega)]
        · intro i hi
          cases i with
          | zero =>
            refine ⟨hnonneg, hlt, normal, hnormal, ?_⟩
            rw [Nat.add_zero, hkeep fvi (by omega), List.getElem?_set_eq_of_lt _ hfvi]
          | succ k =>
            have hk : k < rest.length := by
              rw [List.length_cons] at hi
              omega
            obtain ⟨h0, h1, n, hn, hout⟩ := hnew k hk
            refine ⟨h0, h1, n, hn, ?_⟩
            rw [← hout]
            congr 1
            omega
      · rw [GetMeshNormals_loop, if_neg hid] at h
        simp only [List.getElem?_eq_getElem hlt, VtArray_assign, if_neg hfvi] at h
        cases h

/-- The early returns of `GetMeshNormals`: nothing is written. -/
theorem GetMeshNormals_early (mesh : MFnMesh) (normalsArray : List GfVec3f)
    (interpolation : TfToken)
    (h : mesh.numNormals.1 ≠ MStatus.kSuccess ∨ mesh.numNormals.2 = 0 ∨
      mesh.getNormals.1 ≠ MStatus.kSuccess ∨ mesh.numFaceVertices.1 ≠ MStatus.kSuccess) :
    GetMeshNormals mesh normalsArray interpolation =
      some (false, normalsArray, interpolation) := by
  unfold GetMeshNormals
  simp only [MFnMesh.numNormals, MFnMesh.getNormals, MFnMesh.numFaceVertices] at h ⊢
  by_cases h1 : mesh.numNormalsStatus ≠ MStatus.kSuccess ∨ (mesh.normals.length : Int) = 0
  · rw [if_pos h1]
  · rw [if_neg h1]
    by_cases h2 : mesh.getNormalsStatus ≠ MStatus.kSuccess
    · rw [if_pos h2]
    · rw [if_neg h2]
      by_cases h3 : mesh.numFaceVerticesStatus ≠ MStatus.kSuccess
      · rw [if_pos h3]
      · exfalso
        rcases h with h | h | h | h
        · exact h1 (Or.inl h)
        · exact h1 (Or.inr h)
        · exact h2 h
        · exact h3 h

/-- Past the early returns, `GetMeshNormals` resizes the array, sets the interpolation and
runs the loop. -/
theorem GetMeshNormals_late (mesh : MFnMesh) (normalsArray : List GfVec3f)
    (interpolation : TfToken)
    (h : ¬ (mesh.numNormals.1 ≠ MStatus.kSuccess ∨ mesh.numNormals.2 = 0 ∨
      mesh.getNormals.1 ≠ MStatus.kSuccess ∨ mesh.numFaceVertices.1 ≠ MStatus.kSuccess)) :
    GetMeshNormals mesh normalsArray interpolation =
      match GetMeshNormals_loop mesh.normals mesh.faceVertexNormalIds 0
          (VtArray_resize normalsArray mesh.faceVertexNormalIds.length) with
      | none => none
      | some (result, out) => some (result, out, UsdGeomTokens.faceVarying) := by
  unfold GetMeshNormals
  simp only [MFnMesh.numNormals, MFnMesh.getNormals, MFnMesh.numFaceVertices] at h ⊢
  have h1 : ¬ (mesh.numNormalsStatus ≠ MStatus.kSuccess ∨ (mesh.normals.length : Int) = 0) := by
    rintro (hc | hc)
    · exact h (Or.inl hc)
    · exact h (Or.inr (Or.inl hc))
  have h2 : ¬ mesh.getNormalsStatus ≠ MStatus.kSuccess :=
    fun hc => h (Or.inr (Or.inr (Or.inl hc)))
  have h3 : ¬ mesh.numFaceVerticesStatus ≠ MStatus.kSuccess :=
    fun hc => h (Or.inr (Or.inr (Or.inr hc)))
  rw [if_neg h1, if_neg h2, if_neg h3]

/-- The function `GetMeshNormals` returns on every mesh: no access is outside an array. -/
theorem GetMeshNormals_returns (mesh : MFnMesh) (normalsArray : List GfVec3f)
    (interpolation : TfToken) :
    ∃ result out interp,
      GetMeshNormals mesh normalsArray interpolation = some (result, out, interp) := by
  by_cases h : mesh.numNormals.1 ≠ MStatus.kSuccess ∨ mesh.numNormals.2 = 0 ∨
      mesh.getNormals.1 ≠ MStatus.kSuccess ∨ mesh.numFaceVertices.1 ≠ MStatus.kSuccess
  · exact ⟨false, normalsArray, interpolation, GetMeshNormals_early mesh _ _ h⟩
  · obtain ⟨result, out, hres, _⟩ := GetMeshNormals_loop_returns mesh.normals
      mesh.faceVertexNormalIds 0 (VtArray_resize normalsArray mesh.faceVertexNormalIds.length)
      (by rw [length_VtArray_resize]; omega)
    refine ⟨result, out, UsdGeomTokens.faceVarying, ?_⟩
    rw [GetMeshNormals_late mesh _ _ h, hres]

/-- C7: `GetMeshNormals` returns false when the mesh has no normals data. When the normal
count is 0, or the normal-count, normals or face-vertex-count query fails, the result is false
and `normalsArray` and `interpolation` come back as they were passed in; and on every mesh in
which some face vertex has a `normalId` that is negative or not below the number of normals the
function returns false. -/
theorem GetMeshNormals_false_without_normals (mesh : MFnMesh) (normalsArray : List GfVec3f)
    (interpolation : TfToken) :
    ((mesh.numNormals.2 = 0 ∨ mesh.numNormals.1 ≠ MStatus.kSuccess ∨
        mesh.getNormals.1 ≠ MStatus.kSuccess ∨ mesh.numFaceVertices.1 ≠ MStatus.kSuccess) →
      GetMeshNormals mesh normalsArray interpolation =
        some (false, normalsArray, interpolation)) ∧
    ((∃ normalId ∈ mesh.faceVertexNormalIds, normalId < 0 ∨ mesh.numNormals.2 ≤ normalId) →
      ∃ out interp,
        GetMeshNormals mesh normalsArray interpolation = some (false, out, interp)) := by
  constructor
  · intro h
    apply GetMeshNormals_early
    rcases h with h | h | h | h
    · exact Or.inr (Or.inl h)
    · exact Or.inl h
    · exact Or.inr (Or.inr (Or.inl h))
    · exact Or.inr (Or.inr (Or.inr h))
  · rintro ⟨normalId, hmem, hbad⟩
    by_cases h : mesh.numNormals.1 ≠ MStatus.kSuccess ∨ mesh.numNormals.2 = 0 ∨
        mesh.getNormals.1 ≠ MStatus.kSuccess ∨ mesh.numFaceVertices.1 ≠ MStatus.kSuccess
    · exact ⟨normalsArray, interpolation, GetMeshNormals_early mesh _ _ h⟩
    · obtain ⟨result, out, hres, hiff⟩ := GetMeshNormals_loop_returns mesh.normals
        mesh.faceVertexNormalIds 0
        (VtArray_resize normalsArray mesh.faceVertexNormalIds.length)
        (by rw [length_VtArray_resize]; omega)
      have hfalse : result = false := by
        rw [hiff]
        refine ⟨normalId, hmem, ?_⟩
        rcases hbad with hneg | hbig
        · exact Or.inl hneg
        · by_cases hneg : normalId < 0
          · exact Or.inl hneg
          · right
            simp only [MFnMesh.numNormals] at hbig
            omega
      refine ⟨out, UsdGeomTokens.faceVarying, ?_⟩
      rw [GetMeshNormals_late mesh _ _ h, hres, hfalse]

/-- C7 on two meshes: one without normals, where the out-parameters come back untouched, and
one whose second face vertex names a normal that does not exist. -/
theorem GetMeshNormals_false_without_normals_witness :
    GetMeshNormals meshNoNormals [⟨7, 7, 7⟩] "vertex" = some (false, [⟨7, 7, 7⟩], "vertex") ∧
    ∃ out interp, GetMeshNormals meshBadNormalId [] "" = some (false, out, interp) :=
  ⟨(GetMeshNormals_false_without_normals meshNoNormals [⟨7, 7, 7⟩] "vertex").1
      (Or.inl (by decide)),
   (GetMeshNormals_false_without_normals meshBadNormalId [] "").2
      ⟨2, by decide, by decide⟩⟩

/-- C8: on a mesh on which `GetMeshNormals` returns true, `interpolation` is `faceVarying`,
`normalsArray` has length `numFaceVertices` (the number of face vertices the iterator visits),
and for every face-vertex position `i` the `normalId` at `i` is within the bounds of the mesh's
array of normals and the `i`-th output normal is the mesh normal at that index. -/
theorem GetMeshNormals_true_output (mesh : MFnMesh) (normalsArray : List GfVec3f)
    (interpolation : TfToken) (out : List GfVec3f) (interp : TfToken)
    (h : GetMeshNormals mesh normalsArray interpolation = some (true, out, interp)) :
    mesh.faceVertexNormalIds.length = mesh.numFaceVertices.2 ∧
    interp = UsdGeomTokens.faceVarying ∧
    out.length = mesh.numFaceVertices.2 ∧
    ∀ i (hi : i < mesh.faceVertexNormalIds.length),
      0 ≤ mesh.faceVertexNormalIds[i] ∧
      mesh.faceVertexNormalIds[i] < mesh.numNormals.2 ∧
      (mesh.faceVertexNormalIds[i]).toNat < mesh.getNormals.2.length ∧
      ∃ normal, mesh.getNormals.2[(mesh.faceVertexNormalIds[i]).toNat]? = some normal ∧
        out[i]? = some normal := by
  by_cases hearly : mesh.numNormals.1 ≠ MStatus.kSuccess ∨ mesh.numNormals.2 = 0 ∨
      mesh.getNormals.1 ≠ MStatus.kSuccess ∨ mesh.numFaceVertices.1 ≠ MStatus.kSuccess
  · rw [GetMeshNormals_early mesh _ _ hearly] at h
    have hb : false = true := (Prod.mk.inj (Option.some.inj h)).1
    cases hb
  · rw [GetMeshNormals_late mesh _ _ hearly] at h
    cases hloop : GetMeshNormals_loop mesh.normals mesh.faceVertexNormalIds 0
        (VtArray_resize normalsArray mesh.faceVertexNormalIds.length) with
    | none =>
      rw [hloop] at h
      cases h
    | some res =>
      obtain ⟨result, arr⟩ := res
      rw [hloop] at h
      have hinj := Prod.mk.inj (Option.some.inj h)
      have hres : result = true := hinj.1
      have harr : arr = out := (Prod.mk.inj hinj.2).1
      have hinterp : UsdGeomTokens.faceVarying = interp := (Prod.mk.inj hinj.2).2
      subst hres harr
      obtain ⟨hlen, _, hnew⟩ := GetMeshNormals_loop_true mesh.normals
        mesh.faceVertexNormalIds 0 _ arr hloop
      rw [length_VtArray_resize] at hlen
      refine ⟨rfl, hinterp.symm, hlen, ?_⟩
      intro i hi
      obtain ⟨h0, h1, normal, hn, hout⟩ := hnew i hi
      rw [Nat.zero_add] at hout
      refine ⟨h0, ?_, h1, normal, hn, hout⟩
      simp only [MFnMesh.numNormals]
      omega

/-- C8 on a triangle whose face vertices use normals 1, 0 and 1 of two. -/
theorem GetMeshNormals_true_output_witness :
    GetMeshNormals meshTriangle [] "" =
      some (true, [⟨2, 2, 2⟩, ⟨1, 1, 1⟩, ⟨2, 2, 2⟩], "faceVarying") ∧
    (meshTriangle.faceVertexNormalIds.length = meshTriangle.numFaceVertices.2 ∧
    "faceVarying" = UsdGeomTokens.faceVarying ∧
    [(⟨2, 2, 2⟩ : GfVec3f), ⟨1, 1, 1⟩, ⟨2, 2, 2⟩].length = meshTriangle.numFaceVertices.2 ∧
    ∀ i (hi : i < meshTriangle.faceVertexNormalIds.length),
      0 ≤ meshTriangle.faceVertexNormalIds[i] ∧
      meshTriangle.faceVertexNormalIds[i] < meshTriangle.numNormals.2 ∧
      (meshTriangle.faceVertexNormalIds[i]).toNat < meshTriangle.getNormals.2.length ∧
      ∃ normal,
        meshTriangle.getNormals.2[(meshTriangle.faceVertexNormalIds[i]).toNat]? = some normal ∧
        [(⟨2, 2, 2⟩ : GfVec3f), ⟨1, 1, 1⟩, ⟨2, 2, 2⟩][i]? = some normal) :=
  ⟨by decide,
   GetMeshNormals_true_output meshTriangle [] "" [⟨2, 2, 2⟩, ⟨1, 1, 1⟩, ⟨2, 2, 2⟩]
     "faceVarying" (by decide)⟩

end PxrUsdMayaMeshUtil

/-! ## Theorems: round trips through the setters -/

namespace PxrUsdMayaMeshUtil

/-- A mesh that lacks an attribute has it after `addAttribute`. -/
theorem findPlug_addAttribute_self (meshFn : MFnMesh) (name : String) (plug : MPlug)
    (h : meshFn.findPlug name = none) :
    (meshFn.addAttribute name plug).findPlug name = some plug := by
  unfold MFnMesh.addAttribute
  rw [h]
  unfold MFnMesh.findPlug at h ⊢
  simp only [List.lookup_append, h, Option.or, List.lookup_cons_self]

/-- Adding an attribute leaves the plugs of other names as they were. -/
theorem findPlug_addAttribute_other (meshFn : MFnMesh) (name other : String) (plug : MPlug)
    (hne : other ≠ name) :
    (meshFn.addAttribute name plug).findPlug other = meshFn.findPlug other := by
  unfold MFnMesh.addAttribute
  cases h : meshFn.findPlug name with
  | some _ => rfl
  | none =>
    unfold MFnMesh.findPlug
    have hbeq : (other == name) = false := by simpa using hne
    simp only [List.lookup_append, List.lookup_cons, hbeq, List.lookup_nil, Option.or_none]

/-- Without `USD_faceVaryingLinearInterpolation` the getter checks what
`_getSubdivFVInterpBoundary` gives. -/
theorem getSubdivFVLinearInterpolation_of_legacy (mesh : MFnMesh)
    (h : mesh.findPlug _subdivTokens.USD_faceVaryingLinearInterpolation = none) :
    getSubdivFVLinearInterpolation mesh =
      if _getSubdivFVInterpBoundary mesh = UsdGeomTokens.all ∨
          _getSubdivFVInterpBoundary mesh = UsdGeomTokens.none ∨
          _getSubdivFVInterpBoundary mesh = UsdGeomTokens.boundaries ∨
          _getSubdivFVInterpBoundary mesh = UsdGeomTokens.cornersOnly ∨
          _getSubdivFVInterpBoundary mesh = UsdGeomTokens.cornersPlus1 ∨
          _getSubdivFVInterpBoundary mesh = UsdGeomTokens.cornersPlus2
      then _getSubdivFVInterpBoundary mesh else "" := by
  unfold getSubdivFVLinearInterpolation
  simp only [h]
  exact getSubdivFVLinearInterpolation_check _

/-- A mesh with none of the three face-varying attributes gives the empty token. -/
theorem getSubdivFVLinearInterpolation_of_absent (mesh : MFnMesh)
    (hnew : mesh.findPlug _subdivTokens.USD_faceVaryingLinearInterpolation = none)
    (hold : mesh.findPlug _subdivTokens.USD_faceVaryingInterpolateBoundary = none)
    (hrman : mesh.findPlug "rman__torattr___subdivFacevaryingInterp" = none) :
    getSubdivFVLinearInterpolation mesh = "" := by
  have ht : _getSubdivFVInterpBoundary mesh = "" := by
    unfold _getSubdivFVInterpBoundary
    simp only [hold, hrman]
  rw [getSubdivFVLinearInterpolation_of_legacy mesh hnew, ht]
  decide

/-- C11: round trip of the face-varying setting. For `v` among `all`, `none`, `boundaries`,
`cornersOnly`, `cornersPlus1`, `cornersPlus2`, on a mesh with none of the three face-varying
attributes and with attribute creation succeeding: when `v` is not `cornersPlus1`,
`setSubdivFVLinearInterpolation` stores `v` under the legacy name
`USD_faceVaryingInterpolateBoundary`, the legacy translation leaves it as it is, and
`getSubdivFVLinearInterpolation` returns `v`; when `v` is `cornersPlus1` the mesh is left as it
was and the getter returns the empty token. -/
theorem setSubdivFVLinearInterpolation_round_trip (primSchema : UsdGeomMesh)
    (meshFn : MFnMesh)
    (hv : primSchema.faceVaryingLinearInterpolation = UsdGeomTokens.all ∨
      primSchema.faceVaryingLinearInterpolation = UsdGeomTokens.none ∨
      primSchema.faceVaryingLinearInterpolation = UsdGeomTokens.boundaries ∨
      primSchema.faceVaryingLinearInterpolation = UsdGeomTokens.cornersOnly ∨
      primSchema.faceVaryingLinearInterpolation = UsdGeomTokens.cornersPlus1 ∨
      primSchema.faceVaryingLinearInterpolation = UsdGeomTokens.cornersPlus2)
    (hnew : meshFn.findPlug _subdivTokens.USD_faceVaryingLinearInterpolation = none)
    (hold : meshFn.findPlug _subdivTokens.USD_faceVaryingInterpolateBoundary = none)
    (hrman : meshFn.findPlug "rman__torattr___subdivFacevaryingInterp" = none) :
    (setSubdivFVLinearInterpolation primSchema meshFn MStatus.kSuccess).1 =
      primSchema.faceVaryingLinearInterpolation ∧
    (primSchema.faceVaryingLinearInterpolation ≠ UsdGeomTokens.cornersPlus1 →
      (setSubdivFVLinearInterpolation primSchema meshFn MStatus.kSuccess).2.findPlug
          _subdivTokens.USD_faceVaryingInterpolateBoundary =
        some (stringAttrPlug primSchema.faceVaryingLinearInterpolation) ∧
      (setSubdivFVLinearInterpolation primSchema meshFn MStatus.kSuccess).2.findPlug
          _subdivTokens.USD_faceVaryingLinearInterpolation = none ∧
      _getSubdivFVInterpBoundary
          (setSubdivFVLinearInterpolation primSchema meshFn MStatus.kSuccess).2 =
        primSchema.faceVaryingLinearInterpolation ∧
      getSubdivFVLinearInterpolation
          (setSubdivFVLinearInterpolation primSchema meshFn MStatus.kSuccess).2 =
        primSchema.faceVaryingLinearInterpolation) ∧
    (primSchema.faceVaryingLinearInterpolation = UsdGeomTokens.cornersPlus1 →
      (setSubdivFVLinearInterpolation primSchema meshFn MStatus.kSuccess).2 = meshFn ∧
      getSubdivFVLinearInterpolation
          (setSubdivFVLinearInterpolation primSchema meshFn MStatus.kSuccess).2 = "") := by
  refine ⟨?_, ?_, ?_⟩
  · simp only [setSubdivFVLinearInterpolation]
    split_ifs <;> rfl
  · intro hne
    have hset : (setSubdivFVLinearInterpolation primSchema meshFn MStatus.kSuccess).2 =
        meshFn.addAttribute _subdivTokens.USD_faceVaryingInterpolateBoundary
          (stringAttrPlug primSchema.faceVaryingLinearInterpolation) := by
      unfold setSubdivFVLinearInterpolation
      simp only [ne_eq, hne, not_false_eq_true, if_true]
    rw [hset]
    have hplug := findPlug_addAttribute_self meshFn
      _subdivTokens.USD_faceVaryingInterpolateBoundary
      (stringAttrPlug primSchema.faceVaryingLinearInterpolation) hold
    have hother : (meshFn.addAttribute _subdivTokens.USD_faceVaryingInterpolateBoundary
        (stringAttrPlug primSchema.faceVaryingLinearInterpolation)).findPlug
          _subdivTokens.USD_faceVaryingLinearInterpolation = none := by
      rw [findPlug_addAttribute_other meshFn _ _ _ (by decide)]
      exact hnew
    have htrans : _getSubdivFVInterpBoundary
        (meshFn.addAttribute _subdivTokens.USD_faceVaryingInterpolateBoundary
          (stringAttrPlug primSchema.faceVaryingLinearInterpolation)) =
        primSchema.faceVaryingLinearInterpolation := by
      unfold _getSubdivFVInterpBoundary
      simp only [hplug]
      simp only [stringAttrPlug]
      rcases hv with h | h | h | h | h | h <;> (rw [h]; decide)
    refine ⟨hplug, hother, htrans, ?_⟩
    rw [getSubdivFVLinearInterpolation_of_legacy _ hother, htrans]
    exact if_pos hv
  · intro heq
    have hset : (setSubdivFVLinearInterpolation primSchema meshFn MStatus.kSuccess).2 =
        meshFn := by
      unfold setSubdivFVLinearInterpolation
      simp only [ne_eq, heq, not_true_eq_false, if_false]
    rw [hset]
    exact ⟨rfl, getSubdivFVLinearInterpolation_of_absent meshFn hnew hold hrman⟩

/-- C11 on a mesh without attributes: `boundaries` comes back as `boundaries`, and
`cornersPlus1` comes back as the empty token. -/
theorem setSubdivFVLinearInterpolation_round_trip_witness :
    getSubdivFVLinearInterpolation
        (setSubdivFVLinearInterpolation ⟨"loop", "boundaries"⟩ (meshWithPlugs [])
          MStatus.kSuccess).2 = "boundaries" ∧
    getSubdivFVLinearInterpolation
        (setSubdivFVLinearInterpolation ⟨"loop", "cornersPlus1"⟩ (meshWithPlugs [])
          MStatus.kSuccess).2 = "" :=
  ⟨((setSubdivFVLinearInterpolation_round_trip ⟨"loop", "boundaries"⟩ (meshWithPlugs [])
      (by decide) (by decide) (by decide) (by decide)).2.1 (by decide)).2.2.2,
   ((setSubdivFVLinearInterpolation_round_trip ⟨"loop", "cornersPlus1"⟩ (meshWithPlugs [])
      (by decide) (by decide) (by decide) (by decide)).2.2 (by decide)).2⟩

/-- C12: round trip of the subdivision scheme. For a scheme `s` among `none`,
`catmullClark`, `loop`, `bilinear` and any default `d`, on a mesh with neither
`USD_subdivisionScheme` nor `rman__torattr___subdivScheme` and with attribute creation
succeeding, `getSubdivScheme` with default `d` on the mesh `setSubdivScheme` leaves returns
`s`: when `s` differs from `d` the attribute is created and holds `s`, when `s` equals `d` the
mesh is left as it was. -/
theorem setSubdivScheme_round_trip (primSchema : UsdGeomMesh) (meshFn : MFnMesh)
    (defaultValue : TfToken)
    (hs : primSchema.subdivisionScheme = UsdGeomTokens.none ∨
      primSchema.subdivisionScheme = UsdGeomTokens.catmullClark ∨
      primSchema.subdivisionScheme = UsdGeomTokens.loop ∨
      primSchema.subdivisionScheme = UsdGeomTokens.bilinear)
    (husd : meshFn.findPlug _subdivTokens.USD_subdivisionScheme = none)
    (hrman : meshFn.findPlug "rman__torattr___subdivScheme" = none) :
    (setSubdivScheme primSchema meshFn defaultValue MStatus.kSuccess).1 =
      primSchema.subdivisionScheme ∧
    getSubdivScheme (setSubdivScheme primSchema meshFn defaultValue MStatus.kSuccess).2
        defaultValue = primSchema.subdivisionScheme ∧
    (primSchema.subdivisionScheme ≠ defaultValue →
      (setSubdivScheme primSchema meshFn defaultValue MStatus.kSuccess).2.findPlug
          _subdivTokens.USD_subdivisionScheme =
        some (stringAttrPlug primSchema.subdivisionScheme)) ∧
    (primSchema.subdivisionScheme = defaultValue →
      (setSubdivScheme primSchema meshFn defaultValue MStatus.kSuccess).2 = meshFn) := by
  have hcreated : primSchema.subdivisionScheme ≠ defaultValue →
      (setSubdivScheme primSchema meshFn defaultValue MStatus.kSuccess).2 =
        meshFn.addAttribute _subdivTokens.USD_subdivisionScheme
          (stringAttrPlug primSchema.subdivisionScheme) := by
    intro hne
    unfold setSubdivScheme
    simp only [ne_eq, hne, not_false_eq_true, if_true]
  have hsame : primSchema.subdivisionScheme = defaultValue →
      (setSubdivScheme primSchema meshFn defaultValue MStatus.kSuccess).2 = meshFn := by
    intro heq
    unfold setSubdivScheme
    simp only [ne_eq, heq, not_true_eq_false, if_false]
  refine ⟨?_, ?_, ?_, hsame⟩
  · simp only [setSubdivScheme]
    split_ifs <;> rfl
  · by_cases hne : primSchema.subdivisionScheme = defaultValue
    · rw [hsame hne, getSubdivScheme_of_absent meshFn defaultValue husd hrman]
      exact hne.symm
    · rw [hcreated hne, getSubdivScheme_of_usd _ defaultValue
        (stringAttrPlug primSchema.subdivisionScheme)
        (findPlug_addAttribute_self meshFn _ _ husd)]
      exact if_pos hs
  · intro hne
    rw [hcreated hne]
    exact findPlug_addAttribute_self meshFn _ _ husd

/-- C12 on a mesh without attributes, with default `catmullClark`: `loop` is stored and comes
back, and `catmullClark` comes back without an attribute. -/
theorem setSubdivScheme_round_trip_witness :
    getSubdivScheme
        (setSubdivScheme ⟨"loop", "boundaries"⟩ (meshWithPlugs []) "catmullClark"
          MStatus.kSuccess).2 "catmullClark" = "loop" ∧
    getSubdivScheme
        (setSubdivScheme ⟨"catmullClark", "boundaries"⟩ (meshWithPlugs []) "catmullClark"
          MStatus.kSuccess).2 "catmullClark" = "catmullClark" :=
  ⟨(setSubdivScheme_round_trip ⟨"loop", "boundaries"⟩ (meshWithPlugs []) "catmullClark"
      (by decide) (by decide) (by decide)).2.1,
   (setSubdivScheme_round_trip ⟨"catmullClark", "boundaries"⟩ (meshWithPlugs [])
      "catmullClark" (by decide) (by decide) (by decide)).2.1⟩

end PxrUsdMayaMeshUtil
